import Mathlib

/-!
Verification development for the peerns self-organizing mesh messenger.

The TypeScript source keeps its mutable state in plain JS objects
(`Record<string, T>`) and `Map`s, both of which enumerate string keys in
insertion order.  We model them as association lists (`List (String × α)`)
where `List.lookup` returns the first binding, assignment to an existing key
updates in place, assignment to a fresh key appends, and `delete` removes
the binding.  `Object.keys(m).find(p)` is the first key satisfying `p`.

Timestamps (`Date.now()`, message `ts`) are naturals; opaque runtime
handles (CryptoKey, DataConnection) are modelled by small surrogate data
(`Nat` ids, `Option Bool` for a connection handle and its `open` flag).
Outcomes of WebCrypto calls (signature verification, decryption, ECDH
derivation) are passed in as explicit oracle arguments, since they are
opaque to the state machine; a thrown exception is an explicit alternative
(`Option`/dedicated constructor) as in the `try`/`catch` of the source.
-/

namespace PeerNS

abbrev AListM (α : Type) := List (String × α)

/-- JS object assignment `m[k] = v`: update in place when the key exists,
append otherwise. -/
def upsertA {α : Type} (m : AListM α) (k : String) (v : α) : AListM α :=
  if (List.lookup k m).isSome then
    m.map (fun p => if p.1 = k then (k, v) else p)
  else
    m ++ [(k, v)]

/-- JS field mutation `m[k].f = …` on an existing binding. -/
def modifyA {α : Type} (m : AListM α) (k : String) (f : α → α) : AListM α :=
  m.map (fun p => if p.1 = k then (p.1, f p.2) else p)

/-- JS `delete m[k]`. -/
def eraseA {α : Type} (m : AListM α) (k : String) : AListM α :=
  m.filter (fun p => decide (p.1 ≠ k))

/-- JS `Object.keys(m).find(p)`: first key (in insertion order) whose
binding satisfies the predicate. -/
def findKeyA {α : Type} (m : AListM α) (p : String → α → Bool) : Option String :=
  (m.find? (fun q => p q.1 q.2)).map (fun q => q.1)

/-- JS `array.find(p)` followed by in-place mutation of the found element:
replace the first element satisfying `p` by its image under `f`. -/
def updateFirst {α : Type} (p : α → Bool) (f : α → α) : List α → List α
  | [] => []
  | x :: xs => if p x then f x :: xs else x :: updateFirst p f xs

-- ── Data model (src/unnamed/part_003, `types` import and field uses) ──────────

/-- Contact record, keyed by persistent ID.  `connOpen` models the
`DataConnection` handle: `none` = no handle, `some b` = a handle whose
`open` flag is `b`. -/
structure Contact where
  friendlyName : String := ""
  discoveryID : Option String := none
  discoveryUUID : String := ""
  publicKey : Option String := none
  connOpen : Option Bool := none
  onNetwork : Bool := false
  networkDiscID : Option String := none
  lastSeen : Nat := 0
  pending : Option String := none
  pendingFingerprint : Option String := none
  pendingVerified : Bool := false
deriving DecidableEq

/-- A chat message as stored in `this.chats[pid]`. -/
structure ChatMessage where
  id : String := ""
  dir : String := "sent"
  content : String := ""
  ts : Nat := 0
  mtype : String := "text"
  status : Option String := none
  edited : Bool := false
  deleted : Bool := false
deriving DecidableEq

/-- The session-manager state the claims exercise: the contact store, the
chat histories and the cached shared keys (`Map<string, {key, fingerprint}>`,
values abstracted to surrogate ids). -/
structure PState where
  contacts : AListM Contact := []
  chats : AListM (List ChatMessage) := []
  sharedKeys : AListM Nat := []
deriving DecidableEq

-- ── Contact store operations (part_003 lines 804–846) ─────────────────────────

/-- `findContactByPublicKey` (lines 804–808): first contact key, excluding
`excludePID`, whose record carries exactly this public key. -/
def findContactByPublicKey (contacts : AListM Contact) (publicKey : String)
    (excludePID : Option String) : Option String :=
  findKeyA contacts (fun k c =>
    decide (some k ≠ excludePID) && decide (c.publicKey = some publicKey))

/-- Result of `migrateContact`: the new state, whether `saveContacts`/
`saveChats` ran, and the emitted `contact-migrated` events. -/
structure MigrateResult where
  state : PState
  persisted : Bool
  events : List (String × String)
deriving DecidableEq

/-- Comparator used by `sort((a, b) => a.ts - b.ts)`; `Array.prototype.sort`
is stable, as is `List.mergeSort`. -/
def tsLe (a b : ChatMessage) : Bool := decide (a.ts ≤ b.ts)

/-- `migrateContact(oldPID, newPID)` (lines 810–846).  Returns `none` when
the original would throw: it dereferences `existing.publicKey` with
`existing = contacts[oldPID]` possibly `undefined` (only reached when a
record keyed `newPID` exists but none is keyed `oldPID`).  Spreading an
`undefined` `existing` into a fresh record yields only `{conn: null}`,
modelled by the all-default `Contact`. -/
def migrateContact (st : PState) (oldPID newPID : String) : Option MigrateResult :=
  if oldPID = newPID then some ⟨st, false, []⟩ else
  let existing := List.lookup oldPID st.contacts
  let contacts1? : Option (AListM Contact) :=
    match List.lookup newPID st.contacts with
    | none =>
        let base := existing.getD {}
        some (upsertA st.contacts newPID { base with connOpen := none })
    | some cNew =>
        match existing with
        | none => none
        | some ex =>
            if ex.publicKey.isSome ∧ cNew.publicKey = none then
              some (modifyA st.contacts newPID (fun c => { c with publicKey := ex.publicKey }))
            else
              some st.contacts
  match contacts1? with
  | none => none
  | some contacts1 =>
    let chats1 :=
      match List.lookup oldPID st.chats with
      | none => st.chats
      | some oldMsgs =>
          let merged :=
            match List.lookup newPID st.chats with
            | none => upsertA st.chats newPID oldMsgs
            | some newMsgs =>
                let existingIds := newMsgs.map (fun m => m.id)
                let newOnes := oldMsgs.filter (fun m => decide (m.id ∉ existingIds))
                upsertA st.chats newPID (List.mergeSort (newMsgs ++ newOnes) tsLe)
          eraseA merged oldPID
    let sharedKeys1 :=
      let moved :=
        match List.lookup oldPID st.sharedKeys, List.lookup newPID st.sharedKeys with
        | some k, none => upsertA st.sharedKeys newPID k
        | _, _ => st.sharedKeys
      eraseA moved oldPID
    let contacts2 := eraseA contacts1 oldPID
    some ⟨⟨contacts2, chats1, sharedKeys1⟩, true, [(oldPID, newPID)]⟩

-- ── Shared-key derivation (part_003 lines 310–330) ───────────────────────────

/-- `getOrDeriveSharedKey(pid)`: `null` when the local ECDH key is missing,
the contact is unknown or lacks a public key; otherwise the cached entry,
else a freshly derived one which is cached.  `derived` is the oracle for
what `ECDH`+`HKDF` would produce (`none` = no local ECDH key or the
derivation threw, which the `catch` turns into `null`). -/
def getOrDeriveSharedKey (st : PState) (pid : String) (derived : Option Nat) :
    PState × Option Nat :=
  match List.lookup pid st.contacts with
  | none => (st, none)
  | some c =>
    if c.publicKey = none then (st, none)
    else
      match List.lookup pid st.sharedKeys with
      | some k => (st, some k)
      | none =>
          match derived with
          | some k => ({ st with sharedKeys := upsertA st.sharedKeys pid k }, some k)
          | none => (st, none)

-- ── Persistent-channel handlers (handlePersistentData, lines 1935–2084) ──────

/-- Outcome of `importPublicKey` + `verifySignature` on a signed envelope:
the signature verified, failed to verify, or one of the calls threw. -/
inductive VerifyOutcome
  | valid
  | invalid
  | errored
deriving DecidableEq

/-- The `hello` wire message (fields of `d` the handler reads). -/
structure HelloMsg where
  friendlyname : String := ""
  publicKey : Option String := none
  signature : Option String := none
  ts : Option String := none
deriving DecidableEq

/-- Result of the `hello` branch: new state, whether `conn.close()` ran,
and whether a `hello` was sent back. -/
structure HelloResult where
  state : PState
  closedConn : Bool
  sentHello : Bool
deriving DecidableEq

/-- Common tail of the `hello` branch (lines 1966–1990): ensure the contact
exists, record the live connection, refresh name/lastSeen, drop `pending`,
ensure a chat array, send `hello` back iff the contact was new. -/
def helloTail (st : PState) (pid : String) (d : HelloMsg) (isNew : Bool) (now : Nat) :
    HelloResult :=
  let contacts0 :=
    if (List.lookup pid st.contacts).isSome then st.contacts
    else st.contacts ++ [(pid, { friendlyName := d.friendlyname, discoveryID := none,
                                 discoveryUUID := "", connOpen := some true })]
  let contacts1 := modifyA contacts0 pid (fun c =>
    { c with connOpen := some true, friendlyName := d.friendlyname,
             lastSeen := now, pending := none })
  let chats1 :=
    if (List.lookup pid st.chats).isSome then st.chats else upsertA st.chats pid []
  ⟨⟨contacts1, chats1, st.sharedKeys⟩, false, isNew⟩

/-- The `hello` branch of `handlePersistentData` (lines 1935–1991).
`verify` is the oracle for `importPublicKey`/`verifySignature` on
`(d.signature, d.ts)`; `cryptoAvail` models `window.crypto?.subtle`;
`derived` feeds `getOrDeriveSharedKey`. -/
def helloStep (st : PState) (pid : String) (d : HelloMsg) (cryptoAvail : Bool)
    (verify : VerifyOutcome) (derived : Option Nat) (now : Nat) : HelloResult :=
  -- duplicate-contact migration by incoming public key (lines 1936–1939)
  let st1 :=
    match d.publicKey with
    | none => st
    | some pk =>
        match findContactByPublicKey st.contacts pk (some pid) with
        | none => st
        | some dupPID =>
            match migrateContact st dupPID pid with
            | some r => r.state
            | none => st
  let isNew :=
    match List.lookup pid st1.contacts with
    | none => true
    | some c => c.connOpen = none
  if d.publicKey.isSome ∧ d.signature.isSome ∧ d.ts.isSome then
    if cryptoAvail then
      match verify with
      | .invalid => ⟨st1, true, false⟩
      | .errored => helloTail st1 pid d isNew now
      | .valid =>
          -- create-if-absent with the connection, then (line 1954)
          -- overwrite the stored public key with the incoming one
          let contacts2 :=
            if (List.lookup pid st1.contacts).isSome then st1.contacts
            else st1.contacts ++ [(pid, { friendlyName := d.friendlyname,
                                          discoveryID := none, discoveryUUID := "",
                                          connOpen := some true,
                                          publicKey := d.publicKey })]
          let contacts3 := modifyA contacts2 pid (fun c => { c with publicKey := d.publicKey })
          let st2 := (getOrDeriveSharedKey { st1 with contacts := contacts3 } pid derived).1
          helloTail st2 pid d isNew now
    else helloTail st1 pid d isNew now
  else helloTail st1 pid d isNew now

/-- The `message` wire payload. -/
structure MsgData where
  id : Option String := none
  ts : Nat := 0
  content : Option String := none
  e2e : Bool := false
  iv : Option String := none
  ct : Option String := none
  sig : Option String := none
deriving DecidableEq

/-- Result of the `message` branch: new state, `message-ack` ids sent,
whether the connection was closed, and the stored message. -/
structure MsgStepResult where
  state : PState
  acks : List (Option String)
  closedConn : Bool
  stored : ChatMessage
deriving DecidableEq

/-- Sentinel used when the E2E signature fails to verify (line 2008). -/
def unverifiedSentinel : String := "[unverified encrypted message]"

/-- The `message` branch of `handlePersistentData` (lines 1993–2026).
`verifyResult`/`decryptResult` are oracles for `verifySignature`/`decryptMessage`
(`none` = the call threw, landing in the `catch`); `freshId` is the
`crypto.randomUUID()` fallback; `connOpen` is `conn.open` at ack time. -/
def messageStep (st : PState) (pid : String) (d : MsgData) (derived : Option Nat)
    (verifyResult : Option Bool) (decryptResult : Option String)
    (freshId : String) (connOpen : Bool) : MsgStepResult :=
  let chats0 :=
    if (List.lookup pid st.chats).isSome then st.chats else upsertA st.chats pid []
  let st0 : PState := { st with chats := chats0 }
  let stContent :=
    if d.e2e ∧ d.ct.isSome ∧ d.iv.isSome then
      let sk := getOrDeriveSharedKey st0 pid derived
      let contactPk := (List.lookup pid sk.1.contacts).bind (fun c => c.publicKey)
      if sk.2.isSome ∧ contactPk.isSome then
        match verifyResult with
        | some true =>
            match decryptResult with
            | some plain => (sk.1, plain)
            | none => (sk.1, "[encrypted — decryption failed]")
        | some false => (sk.1, unverifiedSentinel)
        | none => (sk.1, "[encrypted — decryption failed]")
      else (sk.1, "[encrypted — no shared key]")
    else (st0, d.content.getD "")
  let msg : ChatMessage :=
    { id := d.id.getD freshId, dir := "recv", content := stContent.2, ts := d.ts }
  let st2 : PState :=
    { stContent.1 with chats := modifyA stContent.1.chats pid (fun ms => ms ++ [msg]) }
  ⟨st2, if connOpen then [d.id] else [], false, msg⟩

/-- The `message-ack` branch (lines 2028–2038), chat-state effect. -/
def ackRecvStep (chats : AListM (List ChatMessage)) (pid ackId : String) :
    AListM (List ChatMessage) :=
  match List.lookup pid chats with
  | none => chats
  | some _ =>
      modifyA chats pid (updateFirst
        (fun m => m.id == ackId && m.dir == "sent")
        (fun m => { m with status := some "delivered" }))

/-- The `message-edit` branch (lines 2040–2071), chat-state effect.
`resolvedContent` is the content computed at lines 2045–2064 (plaintext
field or E2E decryption outcome), a pure function of the wire message and
the crypto oracles, hence identical on a replay of the same message. -/
def editRecvStep (chats : AListM (List ChatMessage)) (pid editId : String)
    (resolvedContent : String) : AListM (List ChatMessage) :=
  match List.lookup pid chats with
  | none => chats
  | some _ =>
      modifyA chats pid (updateFirst
        (fun m => m.id == editId)
        (fun m => if m.deleted then m
                  else { m with content := resolvedContent, edited := true }))

/-- The `message-delete` branch (lines 2073–2084), chat-state effect. -/
def deleteRecvStep (chats : AListM (List ChatMessage)) (pid delId : String) :
    AListM (List ChatMessage) :=
  match List.lookup pid chats with
  | none => chats
  | some _ =>
      modifyA chats pid (updateFirst
        (fun m => m.id == delId)
        (fun m => { m with content := "", deleted := true }))

-- ── Public edit/delete API (part_003 lines 2167–2202) ────────────────────────

/-- Wire messages the public edit/delete API can emit. -/
inductive OutMsg
  | msgEditE2E (id : String)
  | msgEditPlain (id : String) (content : String)
  | msgDelete (id : String)
deriving DecidableEq

/-- `editMessage(pid, id, content)` (lines 2167–2189).  `derived` feeds
`getOrDeriveSharedKey`; `hasPrivateKey` models `this.privateKey`;
`encryptOk` is whether `encryptMessage`/`signData` succeed. -/
def editMessage (st : PState) (pid id content : String) (derived : Option Nat)
    (hasPrivateKey : Bool) (encryptOk : Bool) : PState × List OutMsg :=
  match List.lookup pid st.chats with
  | none => (st, [])
  | some msgs =>
    match msgs.find? (fun m => m.id == id && m.dir == "sent") with
    | none => (st, [])
    | some m =>
      if m.deleted then (st, []) else
      let st1 : PState :=
        { st with chats := modifyA st.chats pid (updateFirst
            (fun m => m.id == id && m.dir == "sent")
            (fun m => { m with content := content, edited := true })) }
      let connOpen := ((List.lookup pid st1.contacts).bind (fun c => c.connOpen)) = some true
      if connOpen then
        let sk := getOrDeriveSharedKey st1 pid derived
        if sk.2.isSome ∧ hasPrivateKey ∧ encryptOk then
          (sk.1, [OutMsg.msgEditE2E id])
        else
          (sk.1, [OutMsg.msgEditPlain id content])
      else (st1, [])

/-- `deleteMessage(pid, id)` (lines 2191–2202). -/
def deleteMessage (st : PState) (pid id : String) : PState × List OutMsg :=
  match List.lookup pid st.chats with
  | none => (st, [])
  | some msgs =>
    match msgs.find? (fun m => m.id == id && m.dir == "sent") with
    | none => (st, [])
    | some _ =>
      let st1 : PState :=
        { st with chats := modifyA st.chats pid (updateFirst
            (fun m => m.id == id && m.dir == "sent")
            (fun m => { m with content := "", deleted := true })) }
      let connOpen := ((List.lookup pid st1.contacts).bind (fun c => c.connOpen)) = some true
      (st1, if connOpen then [OutMsg.msgDelete id] else [])

-- ── Namespace engine: registry (part_003 lines 112–116, 1084–1213) ───────────

/-- `extractDiscUUID` (lines 112–116): `did.split('-')` and take the last
part.  Character-level split keeps the definition kernel-reducible; for the
single-character separator it agrees with `String.splitOn`. -/
def extractDiscUUID (did : String) : String :=
  String.mk ((did.toList.splitOn '-').reverse.headD [])

/-- A registry entry (`PeerInfo`).  `connId` is the surrogate for the
router-side `DataConnection` handle. -/
structure RegEntry where
  discoveryID : String := ""
  friendlyName : String := ""
  lastSeen : Nat := 0
  connId : Option Nat := none
  isMe : Bool := false
  knownPID : Option String := none
  publicKey : Option String := none
deriving DecidableEq

/-- The fields of a `checkin` wire message that the router reads. -/
structure CheckinMsg where
  discoveryID : String := ""
  friendlyname : String := ""
  publicKey : Option String := none
deriving DecidableEq

/-- Router-side `checkin` handling inside `nsHandleRouterConn`
(lines 1086–1123): dedup the registry by public key (note: the stale-entry
search does not exclude the `isMe` entry), match a local contact by public
key then discovery UUID, mark it on-network, insert/replace the entry. -/
def nsCheckin (registry : AListM RegEntry) (contacts : AListM Contact)
    (d : CheckinMsg) (connId : Nat) (now : Nat) :
    AListM RegEntry × AListM Contact :=
  let registry1 :=
    match d.publicKey with
    | none => registry
    | some pk =>
        match findKeyA registry (fun did e =>
            decide (did ≠ d.discoveryID) && decide (e.publicKey = some pk)) with
        | some staleKey => eraseA registry staleKey
        | none => registry
  let uuid := extractDiscUUID d.discoveryID
  let knownPID := findKeyA contacts (fun _ c =>
    (d.publicKey.isSome && c.publicKey.isSome && decide (c.publicKey = d.publicKey))
      || decide (c.discoveryUUID = uuid))
  let contacts1 :=
    match knownPID with
    | some kp => modifyA contacts kp (fun c =>
        { c with onNetwork := true, networkDiscID := some d.discoveryID })
    | none => contacts
  let registry2 := upsertA registry1 d.discoveryID
    { discoveryID := d.discoveryID, friendlyName := d.friendlyname, lastSeen := now,
      connId := some connId, knownPID := knownPID, publicKey := d.publicKey }
  (registry2, contacts1)

/-- One entry of a `registry` broadcast (`peers` array, lines 1139–1144). -/
structure PeerEntry where
  discoveryID : String := ""
  friendlyname : String := ""
  publicKey : Option String := none
deriving DecidableEq

/-- Result of a peer-side registry merge: new registry, new contacts + the
untouched shared-key cache, and whether `saveContacts` ran. -/
structure MergeResult where
  registry : AListM RegEntry
  state : PState
  persisted : Bool
deriving DecidableEq

/-- The contact-match predicate of the merge loop (lines 1183–1189): a
broadcast entry matches a local contact when both carry the same public
key, or when the contact's discovery UUID equals the UUID suffix of the
entry's discovery ID. -/
def nsMatchPred (p : PeerEntry) : String → Contact → Bool :=
  fun _ c =>
    (p.publicKey.isSome && c.publicKey.isSome && decide (c.publicKey = p.publicKey))
      || decide (c.discoveryUUID = extractDiscUUID p.discoveryID)

/-- Contact-matching part of one merge-loop iteration (lines 1183–1198):
resolve the local contact (public key first, then discovery UUID), mark it
on-network with this entry's discovery ID, and store the entry's public key
when the contact lacks one (persisting the store).  Returns the resolved
`knownPID`, the updated contacts and the updated saved flag. -/
def nsMergeMatch (p : PeerEntry) (cts : AListM Contact) (saved : Bool) :
    Option String × AListM Contact × Bool :=
  let knownPID := findKeyA cts (nsMatchPred p)
  match knownPID with
  | none => (none, cts, saved)
  | some kp =>
      let cts1 := modifyA cts kp (fun c =>
        { c with onNetwork := true, networkDiscID := some p.discoveryID })
      if p.publicKey.isSome ∧ ((List.lookup kp cts1).bind (fun c => c.publicKey)) = none then
        (some kp, modifyA cts1 kp (fun c => { c with publicKey := p.publicKey }), true)
      else (some kp, cts1, saved)

/-- Loop body of `nsMergeRegistry` (lines 1170–1207) for one broadcast
entry. -/
def nsMergeStep (myDiscID : String) (now : Nat)
    (acc : AListM RegEntry × AListM Contact × Bool) (p : PeerEntry) :
    AListM RegEntry × AListM Contact × Bool :=
  if p.discoveryID = myDiscID then acc else
  let reg := acc.1
  let reg1 :=
    match p.publicKey with
    | none => reg
    | some pk =>
        match findKeyA reg (fun did e =>
            decide (did ≠ p.discoveryID) && !e.isMe && decide (e.publicKey = some pk)) with
        | some staleKey => eraseA reg staleKey
        | none => reg
  let mc := nsMergeMatch p acc.2.1 acc.2.2
  let reg2 := upsertA reg1 p.discoveryID
    { discoveryID := p.discoveryID, friendlyName := p.friendlyname, lastSeen := now,
      connId := none, knownPID := mc.1, publicKey := p.publicKey }
  (reg2, mc.2.1, mc.2.2)

/-- `nsMergeRegistry` (lines 1154–1213): rebuild the registry keeping only
the `isMe` entry; reset every contact's `onNetwork`/`networkDiscID` first —
but only for the public namespace (`if (s === this.publicNS)`, line 1163);
then fold the broadcast entries.  The shared-key cache is never touched. -/
def nsMergeRegistry (registry : AListM RegEntry) (st : PState)
    (isPublicNS : Bool) (myDiscID : String) (peers : List PeerEntry) (now : Nat) :
    MergeResult :=
  let myEntry := (registry.find? (fun q => q.2.isMe)).map (fun q => q.2)
  let newReg0 : AListM RegEntry :=
    match myEntry with
    | some e => [(e.discoveryID, e)]
    | none => []
  let contacts0 :=
    if isPublicNS then
      st.contacts.map (fun q => (q.1, { q.2 with onNetwork := false, networkDiscID := none }))
    else st.contacts
  let folded := peers.foldl (nsMergeStep myDiscID now) (newReg0, contacts0, false)
  ⟨folded.1, ⟨folded.2.1, st.chats, st.sharedKeys⟩, folded.2.2⟩

-- ── Namespace engine: join and peer slot (lines 994–1082, 1440–1536) ─────────

/-- `MAX_JOIN_ATTEMPTS` (line 244). -/
def MAX_JOIN_ATTEMPTS : Nat := 3

/-- The join timeout for one connect attempt (line 1027). -/
def joinTimeoutMs : Nat := 8000

/-- Delay between failed join attempts (lines 1023, 1076). -/
def joinRetryDelayMs : Nat := 1500

/-- The reverse-connect slot wait window (line 1517). -/
def peerSlotTimeoutMs : Nat := 30000

/-- The join-related per-namespace state (`NSState` fields the join and
peer-slot flows mutate). -/
structure NSJoin where
  isRouter : Bool := false
  level : Nat := 0
  joinStatus : Option String := none
  joinAttempt : Nat := 0
deriving DecidableEq

/-- Actions the join/peer-slot handlers schedule or perform. -/
inductive NSAction
  | sendCheckin
  | registerDisc
  | startMonitor
  | scheduleRetryJoin (delayMs : Nat) (attempt : Nat)
  | tryPeerSlot (level : Nat)
  | escalate (level : Nat)
  | scheduleSlotRetry (delayMs : ℚ)
deriving DecidableEq

/-- Events delivered to a pending `nsTryJoin` channel (before `open`,
`settled` still false): the 8s timeout (lines 1016–1027) and the error
handler (lines 1069–1081) share the retry/peer-slot decision; `open`
(lines 1029–1050) completes the join. -/
inductive JoinEvent
  | chanOpen
  | chanError
  | timeout8s
deriving DecidableEq

/-- Shared failure path of `nsTryJoin`: retry after 1.5s while
`attempt + 1 < MAX_JOIN_ATTEMPTS`, otherwise fall back to the peer slot
(never escalate directly). -/
def nsJoinFail (s : NSJoin) (level attempt : Nat) : NSJoin × List NSAction :=
  if attempt + 1 < MAX_JOIN_ATTEMPTS then
    (s, [NSAction.scheduleRetryJoin joinRetryDelayMs (attempt + 1)])
  else
    (s, [NSAction.tryPeerSlot level])

/-- Transition of `nsTryJoin(level, attempt)` on a channel event. -/
def nsJoinEvent (s : NSJoin) (level attempt : Nat) : JoinEvent → NSJoin × List NSAction
  | .chanOpen =>
      ({ s with isRouter := false, level := level, joinStatus := none, joinAttempt := 0 },
        [NSAction.sendCheckin, NSAction.registerDisc]
          ++ (if level > 1 then [NSAction.startMonitor] else []))
  | .chanError => nsJoinFail s level attempt
  | .timeout8s => nsJoinFail s level attempt

/-- Events delivered while `nsTryPeerSlot(level)` holds (or attempts) the
`-p1` claim: the router's `reverse-welcome` probe (lines 1458–1502), the
30s expiry (lines 1507–1517), the slot already taken
(`unavailable-id`, lines 1520–1528, retried after `3000 + random()*2000` ms),
or another claim error (lines 1529–1534). -/
inductive SlotEvent
  | reverseWelcome
  | timeout30s
  | slotTaken (random01 : ℚ)
  | otherError
deriving DecidableEq

/-- Transition of `nsTryPeerSlot(level)` on a slot event. -/
def nsSlotEvent (s : NSJoin) (level : Nat) : SlotEvent → NSJoin × List NSAction
  | .reverseWelcome =>
      ({ s with isRouter := false, level := level, joinStatus := none, joinAttempt := 0 },
        [NSAction.sendCheckin, NSAction.registerDisc])
  | .timeout30s =>
      ({ s with joinStatus := none, joinAttempt := 0 }, [NSAction.escalate (level + 1)])
  | .slotTaken r =>
      (s, [NSAction.scheduleSlotRetry (3000 + r * 2000)])
  | .otherError =>
      (s, [NSAction.escalate (level + 1)])

/-- How one contact record may evolve across a registry merge: all fields
other than `publicKey`, `onNetwork`, `networkDiscID` are untouched; a
public key is only ever acquired (never overwritten) and then comes from a
non-self broadcast entry whose discovery UUID matched the contact (a
key-less contact can only be matched by UUID); `onNetwork`/`networkDiscID`
are either untouched or set to `true` with the discovery ID of a non-self
broadcast entry that matched the contact by public key or by discovery
UUID. -/
def contactMergeEvolves (peers : List PeerEntry) (myDiscID : String)
    (c0 c : Contact) : Prop :=
  c.friendlyName = c0.friendlyName ∧ c.discoveryID = c0.discoveryID
  ∧ c.discoveryUUID = c0.discoveryUUID ∧ c.connOpen = c0.connOpen
  ∧ c.lastSeen = c0.lastSeen ∧ c.pending = c0.pending
  ∧ c.pendingFingerprint = c0.pendingFingerprint
  ∧ c.pendingVerified = c0.pendingVerified
  ∧ (c.publicKey = c0.publicKey
      ∨ (c0.publicKey = none ∧ c.publicKey ≠ none
          ∧ ∃ p ∈ peers, p.discoveryID ≠ myDiscID ∧ p.publicKey = c.publicKey
              ∧ c0.discoveryUUID = extractDiscUUID p.discoveryID))
  ∧ ((c.onNetwork = c0.onNetwork ∧ c.networkDiscID = c0.networkDiscID)
      ∨ (c.onNetwork = true ∧ ∃ p ∈ peers, p.discoveryID ≠ myDiscID
          ∧ c.networkDiscID = some p.discoveryID
          ∧ ((p.publicKey.isSome = true ∧ c.publicKey = p.publicKey)
              ∨ c0.discoveryUUID = extractDiscUUID p.discoveryID)))

/-- The pairwise relation between an initial contact list and its image
under a registry merge. -/
def mergeRel (peers : List PeerEntry) (myDiscID : String)
    (a b : String × Contact) : Prop :=
  a.1 = b.1 ∧ contactMergeEvolves peers myDiscID a.2 b.2

-- ── Rendezvous exchange (part_003 lines 2605–2665) ───────────────────────────

/-- The fields of an `rvz-exchange` wire message the handler reads. -/
structure RvzExchangeMsg where
  persistentID : String := ""
  friendlyName : String := ""
  publicKey : Option String := none
  ts : Option String := none
  signature : Option String := none
deriving DecidableEq

/-- Result of `rvzHandleExchange`: new state, the migration performed (if
any) and whether the connection was closed by the verification gate. -/
structure RvzResult where
  state : PState
  migrated : Option (String × String)
  closedConn : Bool
deriving DecidableEq

/-- Body of `rvzHandleExchange` after the signature gate (lines 2623–2635):
resolve the old persistent ID (caller-supplied `expectedPID` first, else
lookup by public key) and migrate when it differs from the incoming one.
`none` when the inner `migrateContact` would throw. -/
def rvzExchangeBody (st : PState) (d : RvzExchangeMsg) (expectedPID : Option String) :
    Option RvzResult :=
  let newPID := d.persistentID
  let oldPID :=
    match expectedPID with
    | some p => some p
    | none =>
        match d.publicKey with
        | some pk => findContactByPublicKey st.contacts pk none
        | none => none
  match oldPID with
  | some op =>
      if op ≠ newPID then
        match migrateContact st op newPID with
        | some r => some ⟨r.state, some (op, newPID), false⟩
        | none => none
      else some ⟨st, none, false⟩
  | none => some ⟨st, none, false⟩

/-- `rvzHandleExchange` (lines 2605–2665): the signature is verified only
when `d.publicKey`, `d.signature` and `d.ts` are all present and
`window.crypto?.subtle` exists; a failed or crashed verification closes the
connection and stops; otherwise (including when the gate is skipped) the
exchange body runs. -/
def rvzHandleExchange (st : PState) (d : RvzExchangeMsg) (expectedPID : Option String)
    (cryptoAvail : Bool) (verify : VerifyOutcome) : Option RvzResult :=
  if d.publicKey.isSome ∧ d.signature.isSome ∧ d.ts.isSome ∧ cryptoAvail then
    match verify with
    | .invalid => some ⟨st, none, true⟩
    | .errored => some ⟨st, none, true⟩
    | .valid => rvzExchangeBody st d expectedPID
  else
    rvzExchangeBody st d expectedPID

-- ── Concrete states used by the claim theorems and witnesses ────────────────

/-- A store with one contact whose public key has already been recorded. -/
def c1State : PState :=
  { contacts := [("app-aaaa", { friendlyName := "Alice", publicKey := some "K" })] }

/-- A hello carrying a different public key with a valid signature over its
own timestamp. -/
def c1Hello : HelloMsg :=
  { friendlyname := "Alice", publicKey := some "K2", signature := some "s", ts := some "1" }

/-- Number of `isMe` entries in a registry. -/
def countIsMe (reg : AListM RegEntry) : Nat :=
  (reg.filter (fun q => q.2.isMe)).length

/-- The router's registry holding exactly its own `isMe` entry. -/
def c3Registry : AListM RegEntry :=
  [("app-1-2-3-4-selfuuid",
    { discoveryID := "app-1-2-3-4-selfuuid", friendlyName := "Me", lastSeen := 0,
      isMe := true, publicKey := some "K" })]

/-- A store knowing contact `app-old` with public key `K`. -/
def c2State : PState :=
  { contacts := [("app-old", { friendlyName := "Bob", publicKey := some "K" })] }

/-- A chat whose sent message `s2` is already `delivered`. -/
def c8Chats : AListM (List ChatMessage) :=
  [("app-aaaa", [{ id := "s2", dir := "sent", content := "yo", ts := 3,
                   status := some "delivered" }])]

/-- A chat with one received message and one already-deleted sent message. -/
def c10Msgs : List ChatMessage :=
  [{ id := "r1", dir := "recv", content := "hi", ts := 1 },
   { id := "s1", dir := "sent", content := "", deleted := true }]

/-- A store with one contact holding the `c10Msgs` chat. -/
def c10State : PState :=
  { contacts := [("app-aaaa", { friendlyName := "Alice", connOpen := some true })],
    chats := [("app-aaaa", c10Msgs)] }

/-- Contacts for the C6 scenarios: `app-p1` (no key, UUID `u1`) and
`app-p2` already flagged on-network from an earlier broadcast. -/
def c6State : PState :=
  { contacts := [("app-p1", { friendlyName := "A", discoveryUUID := "u1" }),
                 ("app-p2", { friendlyName := "B", discoveryUUID := "u2",
                              onNetwork := true, networkDiscID := some "app-ip-u2" })] }

/-- A registry holding only the local `isMe` entry. -/
def c6Registry : AListM RegEntry :=
  [("app-ip-me", { discoveryID := "app-ip-me", friendlyName := "Me", isMe := true })]

/-- A broadcast with one non-self entry matching `app-p1` by discovery UUID
and supplying a public key. -/
def c6Peers : List PeerEntry :=
  [{ discoveryID := "app-ip-u1", friendlyname := "A", publicKey := some "K" }]

/-- Witness state for the amended C4 theorem. -/
def c4WitnessState : PState :=
  { contacts := [("app-old", { friendlyName := "C", publicKey := some "K" })],
    chats := [("app-old", [{ id := "a", dir := "recv", content := "x", ts := 3 },
                           { id := "b", dir := "sent", content := "y", ts := 5 }])],
    sharedKeys := [("app-old", 1)] }

/-- C4 counterexample state: `app-new` already exists with a *different*
public key and its own cached shared key, and `app-old`'s history is
unsorted with a duplicated id. -/
def c4State : PState :=
  { contacts := [("app-old", { friendlyName := "C", publicKey := some "K" }),
                 ("app-new", { friendlyName := "C2", publicKey := some "K2" })],
    chats := [("app-old", [{ id := "a", dir := "recv", content := "x", ts := 5 },
                           { id := "a", dir := "recv", content := "y", ts := 3 }])],
    sharedKeys := [("app-old", 1), ("app-new", 2)] }

-- ── Association-list lemmas ───────────────────────────────────────────────────

theorem lookup_cons {α : Type} (t : AListM α) (j a : String) (b : α) :
    List.lookup j ((a, b) :: t) = if j = a then some b else List.lookup j t := by
  by_cases h : j = a
  · simp [List.lookup, h]
  · simp [List.lookup, beq_eq_false_iff_ne.2 h, h]

theorem modifyA_cons {α : Type} (t : AListM α) (a : String) (b : α) (k : String)
    (f : α → α) :
    modifyA ((a, b) :: t) k f
      = (if a = k then (a, f b) else (a, b)) :: modifyA t k f := by
  by_cases h : a = k <;> simp [modifyA, h]

theorem eraseA_cons {α : Type} (t : AListM α) (a : String) (b : α) (k : String) :
    eraseA ((a, b) :: t) k
      = if a = k then eraseA t k else (a, b) :: eraseA t k := by
  by_cases h : a = k <;> simp [eraseA, List.filter, h]

theorem lookup_modifyA_self {α : Type} (m : AListM α) (k : String) (f : α → α) :
    List.lookup k (modifyA m k f) = (List.lookup k m).map f := by
  induction m with
  | nil => rfl
  | cons q t ih =>
      obtain ⟨a, b⟩ := q
      rw [modifyA_cons]
      by_cases h : a = k
      · subst h
        simp [lookup_cons]
      · rw [if_neg h, lookup_cons, lookup_cons, if_neg (Ne.symm h), if_neg (Ne.symm h)]
        exact ih

theorem lookup_modifyA_ne {α : Type} (m : AListM α) (j k : String) (f : α → α)
    (h : j ≠ k) : List.lookup j (modifyA m k f) = List.lookup j m := by
  induction m with
  | nil => rfl
  | cons q t ih =>
      obtain ⟨a, b⟩ := q
      rw [modifyA_cons]
      by_cases ha : a = k
      · subst ha
        rw [if_pos rfl, lookup_cons, lookup_cons, if_neg h, if_neg h]
        exact ih
      · rw [if_neg ha, lookup_cons, lookup_cons]
        by_cases hj : j = a
        · simp [hj]
        · rw [if_neg hj, if_neg hj]
          exact ih

theorem modifyA_comp {α : Type} (m : AListM α) (k : String) (f g : α → α) :
    modifyA (modifyA m k f) k g = modifyA m k (fun x => g (f x)) := by
  unfold modifyA
  rw [List.map_map]
  apply List.map_congr_left
  intro q _
  by_cases h : q.1 = k <;> simp [Function.comp, h]

theorem modifyA_map_fst {α : Type} (m : AListM α) (k : String) (f : α → α) :
    (modifyA m k f).map Prod.fst = m.map Prod.fst := by
  unfold modifyA
  rw [List.map_map]
  apply List.map_congr_left
  intro q _
  by_cases h : q.1 = k <;> simp [Function.comp, h]

theorem lookup_map_upd_self {α : Type} (m : AListM α) (k : String) (v : α)
    (h : (List.lookup k m).isSome) :
    List.lookup k (m.map (fun p => if p.1 = k then (k, v) else p)) = some v := by
  induction m with
  | nil => simp [List.lookup] at h
  | cons q t ih =>
      obtain ⟨a, b⟩ := q
      rw [List.map_cons]
      by_cases hq : a = k
      · subst hq
        simp [lookup_cons]
      · rw [show (if (a, b).1 = k then (k, v) else (a, b)) = (a, b) from by simp [hq]]
        rw [lookup_cons t k a b, if_neg (Ne.symm hq)] at h
        rw [lookup_cons, if_neg (Ne.symm hq)]
        exact ih h

theorem lookup_map_upd_ne {α : Type} (m : AListM α) (j k : String) (v : α)
    (h : j ≠ k) :
    List.lookup j (m.map (fun p => if p.1 = k then (k, v) else p)) = List.lookup j m := by
  induction m with
  | nil => rfl
  | cons q t ih =>
      obtain ⟨a, b⟩ := q
      rw [List.map_cons]
      by_cases hq : a = k
      · subst hq
        rw [show (if (a, b).1 = a then (a, v) else (a, b)) = (a, v) from by simp]
        rw [lookup_cons, lookup_cons, if_neg h, if_neg h]
        exact ih
      · rw [show (if (a, b).1 = k then (k, v) else (a, b)) = (a, b) from by simp [hq]]
        rw [lookup_cons, lookup_cons]
        by_cases hj : j = a
        · simp [hj]
        · rw [if_neg hj, if_neg hj]
          exact ih

theorem lookup_append_single_self {α : Type} (m : AListM α) (k : String) (v : α)
    (h : List.lookup k m = none) :
    List.lookup k (m ++ [(k, v)]) = some v := by
  induction m with
  | nil => simp [List.lookup]
  | cons q t ih =>
      obtain ⟨a, b⟩ := q
      rw [lookup_cons t k a b] at h
      by_cases hq : k = a
      · simp [hq] at h
      · rw [if_neg hq] at h
        rw [List.cons_append, lookup_cons, if_neg hq]
        exact ih h

theorem lookup_append_single_ne {α : Type} (m : AListM α) (j k : String) (v : α)
    (h : j ≠ k) :
    List.lookup j (m ++ [(k, v)]) = List.lookup j m := by
  induction m with
  | nil => simp [List.lookup, beq_eq_false_iff_ne.2 h]
  | cons q t ih =>
      obtain ⟨a, b⟩ := q
      rw [List.cons_append, lookup_cons, lookup_cons]
      by_cases hj : j = a
      · simp [hj]
      · rw [if_neg hj, if_neg hj]
        exact ih

theorem lookup_upsertA_self {α : Type} (m : AListM α) (k : String) (v : α) :
    List.lookup k (upsertA m k v) = some v := by
  unfold upsertA
  by_cases h : (List.lookup k m).isSome
  · simpa [h] using lookup_map_upd_self m k v h
  · have hn : List.lookup k m = none := by
      cases hv : List.lookup k m
      · rfl
      · simp [hv] at h
    simpa [h] using lookup_append_single_self m k v hn

theorem lookup_upsertA_ne {α : Type} (m : AListM α) (j k : String) (v : α)
    (h : j ≠ k) : List.lookup j (upsertA m k v) = List.lookup j m := by
  unfold upsertA
  by_cases hs : (List.lookup k m).isSome
  · simpa [hs] using lookup_map_upd_ne m j k v h
  · simpa [hs] using lookup_append_single_ne m j k v h

theorem lookup_eraseA_self {α : Type} (m : AListM α) (k : String) :
    List.lookup k (eraseA m k) = none := by
  induction m with
  | nil => rfl
  | cons q t ih =>
      obtain ⟨a, b⟩ := q
      rw [eraseA_cons]
      by_cases hq : a = k
      · rw [if_pos hq]
        exact ih
      · rw [if_neg hq, lookup_cons, if_neg (Ne.symm hq)]
        exact ih

theorem lookup_eraseA_ne {α : Type} (m : AListM α) (j k : String) (h : j ≠ k) :
    List.lookup j (eraseA m k) = List.lookup j m := by
  induction m with
  | nil => rfl
  | cons q t ih =>
      obtain ⟨a, b⟩ := q
      rw [eraseA_cons]
      by_cases hq : a = k
      · subst hq
        rw [if_pos rfl, lookup_cons, if_neg h]
        exact ih
      · rw [if_neg hq, lookup_cons, lookup_cons]
        by_cases hj : j = a
        · simp [hj]
        · rw [if_neg hj, if_neg hj]
          exact ih

/-- `updateFirst` applied twice with the same predicate and function is the
same as once, provided `f` preserves the predicate and is idempotent on
matching elements. -/
theorem updateFirst_idem {α : Type} (p : α → Bool) (f : α → α)
    (hp : ∀ x, p x = true → p (f x) = true)
    (hf : ∀ x, p x = true → f (f x) = f x) :
    ∀ l : List α, updateFirst p f (updateFirst p f l) = updateFirst p f l := by
  intro l
  induction l with
  | nil => rfl
  | cons x xs ih =>
      by_cases hx : p x = true
      · simp [updateFirst, hx, hp x hx, hf x hx]
      · simp [updateFirst, hx, ih]

/-- Elements rejected by `q` are untouched by `updateFirst p f` whenever
matching elements fail `q` and `f` does not change `q`-membership. -/
theorem filter_updateFirst {α : Type} (p q : α → Bool) (f : α → α)
    (hpq : ∀ x, p x = true → q x = false) (hfq : ∀ x, q (f x) = q x) :
    ∀ l : List α, (updateFirst p f l).filter q = l.filter q := by
  intro l
  induction l with
  | nil => rfl
  | cons x xs ih =>
      by_cases hx : p x = true
      · have h1 : q x = false := hpq x hx
        have h2 : q (f x) = false := by rw [hfq]; exact h1
        simp [updateFirst, hx, List.filter, h1, h2]
      · have hstep : updateFirst p f (x :: xs) = x :: updateFirst p f xs := by
          simp [updateFirst, hx]
        rw [hstep]
        cases hqx : q x <;> simp [List.filter, hqx, ih]

-- ── Claim theorems ────────────────────────────────────────────────────────────

/-- C9: `migrateContact(p, p)` is a no-op: the guard `if (oldPID === newPID)
return;` fires before any store, chat, shared-key, persistence or event
effect, so the state is unchanged, nothing is persisted and no
`contact-migrated` event is emitted. -/
theorem migrateContact_self_noop (st : PState) (p : String) :
    migrateContact st p p = some ⟨st, false, []⟩ := by
  simp [migrateContact]

-- ── C1: contact public-key immutability ───────────────────────────────────────

/-- C1: the immutability invariant is broken by the `hello` handler: line
1954 (`this.contacts[pid].publicKey = d.publicKey`) runs unconditionally
after a successful signature check, so a hello carrying a different
(self-consistently signed) public key replaces the recorded key `K` with
`K2` — while the shared key cached for the contact (derived from `K`) is
left in place, which is exactly the situation the code's own
`clearSharedKey` comment ("if contact's public key changes — shouldn't
happen") rules out. -/
theorem hello_overwrites_recorded_public_key :
    ((List.lookup "app-aaaa" c1State.contacts).bind (fun c => c.publicKey)) = some "K"
    ∧ ((List.lookup "app-aaaa"
          (helloStep c1State "app-aaaa" c1Hello true VerifyOutcome.valid none
            5).state.contacts).bind (fun c => c.publicKey)) = some "K2" := by
  constructor
  · rfl
  · rfl

-- ── C3: unique isMe registry entry ────────────────────────────────────────────

/-- C3: the router-side checkin dedup (lines 1090–1098) removes "the stale
entry with the same public key" without excluding the `isMe` entry — unlike
the peer-side merge (line 1178), which guards with `!newRegistry[did].isMe`.
A checkin whose public key equals the router's own therefore evicts the
router's self entry, leaving a registry with no `isMe` entry at all. -/
theorem checkin_can_evict_self_entry :
    countIsMe c3Registry = 1
    ∧ countIsMe (nsCheckin c3Registry []
        { discoveryID := "app-1-2-3-4-otheruuid", friendlyname := "Eve",
          publicKey := some "K" } 7 10).1 = 0 := by
  constructor
  · rfl
  · rfl

-- ── C2: rvz-exchange signature gate ───────────────────────────────────────────

/-- C2 counterexample: an `rvz-exchange` with **no signature field** skips
the verification gate entirely (the gate at line 2607 requires
`d.publicKey && d.signature && d.ts` before verifying) and still triggers
`migrateContact("app-old", "app-new")` — the claim says an exchange whose
signature is absent causes no contact migration. -/
theorem rvz_unsigned_exchange_still_migrates :
    (rvzHandleExchange c2State
        { persistentID := "app-new", friendlyName := "Bob", publicKey := some "K",
          ts := some "9", signature := none } none true VerifyOutcome.invalid).map
      (fun r => r.migrated) = some (some ("app-old", "app-new")) := by
  rfl

/-- C2 (amended): the signature is verified only when `publicKey`,
`signature` and `ts` are all present and WebCrypto is available; a failed
(or crashed) verification closes the connection and performs no migration
and no state change.  Migration is performed *exactly* when the gate lets
the body run and the resolved old PID exists and differs from the incoming
persistent ID: conjunct two is the only-if direction (every performed
migration `(o, n)` has `n` the message's persistent ID, `o ≠ n`, `o` the
caller-expected PID if one was supplied and otherwise the known contact
matching the message's public key, and — when all three fields were present
and crypto was available — a verified signature); conjunct three is the
forward direction: under those resolution conditions the handler *is*
`migrateContact o persistentID` (returning the migrated state, or
propagating its exception). -/
theorem rvzHandleExchange_gate_spec (st : PState) (d : RvzExchangeMsg)
    (expectedPID : Option String) (v : VerifyOutcome) (ca : Bool) :
    (d.publicKey.isSome = true → d.signature.isSome = true → d.ts.isSome = true →
      ca = true → v ≠ VerifyOutcome.valid →
      rvzHandleExchange st d expectedPID ca v = some ⟨st, none, true⟩)
    ∧ (∀ r o n, rvzHandleExchange st d expectedPID ca v = some r →
        r.migrated = some (o, n) →
        n = d.persistentID ∧ o ≠ n
        ∧ (expectedPID = some o ∨ (expectedPID = none ∧ ∃ pk, d.publicKey = some pk ∧
            findContactByPublicKey st.contacts pk none = some o))
        ∧ (d.publicKey.isSome = true → d.signature.isSome = true → d.ts.isSome = true →
            ca = true → v = VerifyOutcome.valid))
    ∧ (∀ o, ((d.publicKey.isSome = true ∧ d.signature.isSome = true
          ∧ d.ts.isSome = true ∧ ca = true) → v = VerifyOutcome.valid) →
        (expectedPID = some o ∨ (expectedPID = none ∧ ∃ pk, d.publicKey = some pk ∧
          findContactByPublicKey st.contacts pk none = some o)) →
        o ≠ d.persistentID →
        rvzHandleExchange st d expectedPID ca v
          = (migrateContact st o d.persistentID).map
              (fun m => ⟨m.state, some (o, d.persistentID), false⟩)) := by
  refine ⟨?_, ?_, ?_⟩
  · intro h1 h2 h3 h4 h5
    unfold rvzHandleExchange
    rw [if_pos ⟨h1, h2, h3, h4⟩]
    cases v with
    | valid => exact absurd rfl h5
    | invalid => rfl
    | errored => rfl
  · intro r o n hr hm
    have hbody : ∀ (hb : rvzExchangeBody st d expectedPID = some r),
        n = d.persistentID ∧ o ≠ n
        ∧ (expectedPID = some o ∨ (expectedPID = none ∧ ∃ pk, d.publicKey = some pk ∧
            findContactByPublicKey st.contacts pk none = some o)) := by
      intro hb
      unfold rvzExchangeBody at hb
      cases hexp : expectedPID with
      | some p =>
          rw [hexp] at hb
          simp only at hb
          by_cases hne : p ≠ d.persistentID
          · rw [if_pos hne] at hb
            cases hmig : migrateContact st p d.persistentID with
            | none => rw [hmig] at hb; exact absurd hb (by simp)
            | some mr =>
                rw [hmig] at hb
                have : r = ⟨mr.state, some (p, d.persistentID), false⟩ := by
                  simpa using hb.symm
                rw [this] at hm
                simp only [RvzResult.migrated] at hm
                injection hm with hpair
                injection hpair with ho hn
                subst ho; subst hn
                exact ⟨rfl, hne, Or.inl rfl⟩
          · rw [if_neg hne] at hb
            have : r = ⟨st, none, false⟩ := by simpa using hb.symm
            rw [this] at hm
            simp at hm
      | none =>
          rw [hexp] at hb
          simp only at hb
          cases hpk : d.publicKey with
          | none =>
              rw [hpk] at hb
              simp only at hb
              have : r = ⟨st, none, false⟩ := by simpa using hb.symm
              rw [this] at hm
              simp at hm
          | some pk =>
              rw [hpk] at hb
              simp only at hb
              cases hfind : findContactByPublicKey st.contacts pk none with
              | none =>
                  rw [hfind] at hb
                  simp only at hb
                  have : r = ⟨st, none, false⟩ := by simpa using hb.symm
                  rw [this] at hm
                  simp at hm
              | some op =>
                  rw [hfind] at hb
                  simp only at hb
                  by_cases hne : op ≠ d.persistentID
                  · rw [if_pos hne] at hb
                    cases hmig : migrateContact st op d.persistentID with
                    | none => rw [hmig] at hb; exact absurd hb (by simp)
                    | some mr =>
                        rw [hmig] at hb
                        have : r = ⟨mr.state, some (op, d.persistentID), false⟩ := by
                          simpa using hb.symm
                        rw [this] at hm
                        simp only [RvzResult.migrated] at hm
                        injection hm with hpair
                        injection hpair with ho hn
                        subst ho; subst hn
                        exact ⟨rfl, hne, Or.inr ⟨rfl, pk, rfl, hfind⟩⟩
                  · rw [if_neg hne] at hb
                    have : r = ⟨st, none, false⟩ := by simpa using hb.symm
                    rw [this] at hm
                    simp at hm
    unfold rvzHandleExchange at hr
    by_cases hgate : d.publicKey.isSome = true ∧ d.signature.isSome = true
        ∧ d.ts.isSome = true ∧ ca = true
    · rw [if_pos hgate] at hr
      cases v with
      | valid =>
          obtain ⟨a, b, c⟩ := hbody hr
          exact ⟨a, b, c, fun _ _ _ _ => rfl⟩
      | invalid =>
          have : r = ⟨st, none, true⟩ := by simpa using hr.symm
          rw [this] at hm
          simp at hm
      | errored =>
          have : r = ⟨st, none, true⟩ := by simpa using hr.symm
          rw [this] at hm
          simp at hm
    · rw [if_neg hgate] at hr
      obtain ⟨a, b, c⟩ := hbody hr
      refine ⟨a, b, c, fun h1 h2 h3 h4 => absurd ⟨h1, h2, h3, h4⟩ hgate⟩
  · intro o hrun hres hne
    have hbody : rvzHandleExchange st d expectedPID ca v
        = rvzExchangeBody st d expectedPID := by
      unfold rvzHandleExchange
      by_cases hgate : d.publicKey.isSome = true ∧ d.signature.isSome = true
          ∧ d.ts.isSome = true ∧ ca = true
      · rw [if_pos hgate, hrun hgate]
      · rw [if_neg hgate]
    rw [hbody]
    unfold rvzExchangeBody
    rcases hres with hexp | ⟨hexp, pk, hpk, hfind⟩
    · rw [hexp]
      simp only
      rw [if_pos hne]
      cases hmig : migrateContact st o d.persistentID with
      | none => simp [hmig]
      | some mr => simp [hmig]
    · rw [hexp, hpk]
      simp only
      rw [hfind]
      simp only
      rw [if_pos hne]
      cases hmig : migrateContact st o d.persistentID with
      | none => simp [hmig]
      | some mr => simp [hmig]

-- ── C7: join retry, peer-slot fallback and escalation ────────────────────────

/-- C7: each join attempt is bounded by the 8-second timeout; a failure
(channel error or timeout before open) with `attempt + 1 < MAX_JOIN_ATTEMPTS = 3`
schedules a retry 1.5 s later, and on the third failure the peer falls back
to the reverse-connect peer slot instead of escalating; the claimed slot
expires after 30 s, whereupon election escalates to level L+1; a slot
already taken is re-tried after `3000 + random() * 2000` ms, i.e. within
3–5 s. -/
theorem nsJoin_retry_slot_escalation (s : NSJoin) (level attempt : Nat)
    (e : JoinEvent) (r : ℚ) :
    joinTimeoutMs = 8000 ∧ MAX_JOIN_ATTEMPTS = 3 ∧ peerSlotTimeoutMs = 30000
    ∧ (e ≠ JoinEvent.chanOpen → attempt + 1 < MAX_JOIN_ATTEMPTS →
        nsJoinEvent s level attempt e
          = (s, [NSAction.scheduleRetryJoin 1500 (attempt + 1)]))
    ∧ (e ≠ JoinEvent.chanOpen → MAX_JOIN_ATTEMPTS ≤ attempt + 1 →
        nsJoinEvent s level attempt e = (s, [NSAction.tryPeerSlot level]))
    ∧ nsSlotEvent s level SlotEvent.timeout30s
        = ({ s with joinStatus := none, joinAttempt := 0 }, [NSAction.escalate (level + 1)])
    ∧ (0 ≤ r → r < 1 →
        nsSlotEvent s level (SlotEvent.slotTaken r)
          = (s, [NSAction.scheduleSlotRetry (3000 + r * 2000)])
        ∧ 3000 ≤ 3000 + r * 2000 ∧ 3000 + r * 2000 < 5000) := by
  refine ⟨rfl, rfl, rfl, ?_, ?_, rfl, ?_⟩
  · intro he hlt
    cases e with
    | chanOpen => exact absurd rfl he
    | chanError =>
        simp only [nsJoinEvent, nsJoinFail, if_pos hlt]
        rfl
    | timeout8s =>
        simp only [nsJoinEvent, nsJoinFail, if_pos hlt]
        rfl
  · intro he hge
    have hnlt : ¬ attempt + 1 < MAX_JOIN_ATTEMPTS := not_lt.2 hge
    cases e with
    | chanOpen => exact absurd rfl he
    | chanError =>
        simp only [nsJoinEvent, nsJoinFail, if_neg hnlt]
    | timeout8s =>
        simp only [nsJoinEvent, nsJoinFail, if_neg hnlt]
  · intro h0 h1
    refine ⟨rfl, by linarith, by linarith⟩

/-- Witness for C7: the third failed attempt (`attempt = 2`) falls back to
the peer slot, and a slot-taken retry with `random() = 1/2` lands at 4 s. -/
theorem nsJoin_retry_slot_escalation_witness :
    (JoinEvent.chanError ≠ JoinEvent.chanOpen ∧ MAX_JOIN_ATTEMPTS ≤ 2 + 1
      ∧ (0 : ℚ) ≤ 1/2 ∧ (1/2 : ℚ) < 1)
    ∧ nsJoinEvent {} 2 2 JoinEvent.chanError = ({}, [NSAction.tryPeerSlot 2])
    ∧ nsSlotEvent {} 2 (SlotEvent.slotTaken (1/2))
        = ({}, [NSAction.scheduleSlotRetry (3000 + (1/2 : ℚ) * 2000)]) :=
  ⟨⟨(by intro h; cases h), (by decide), (by norm_num), (by norm_num)⟩,
    (nsJoin_retry_slot_escalation {} 2 2 JoinEvent.chanError (1/2)).2.2.2.2.1
      (by intro h; cases h) (by decide),
    ((nsJoin_retry_slot_escalation {} 2 2 JoinEvent.chanError (1/2)).2.2.2.2.2.2
      (by norm_num) (by norm_num)).1⟩

-- ── C5: tampered E2E message is stored with sentinel, acked, channel kept ────

theorem gdsk_contacts_eq (st : PState) (pid : String) (derived : Option Nat) :
    (getOrDeriveSharedKey st pid derived).1.contacts = st.contacts := by
  unfold getOrDeriveSharedKey
  cases List.lookup pid st.contacts with
  | none => rfl
  | some c =>
      by_cases h : c.publicKey = none
      · simp [h]
      · cases List.lookup pid st.sharedKeys with
        | some k => simp [h]
        | none => cases derived with
            | some k => simp [h]
            | none => simp [h]

theorem gdsk_chats_eq (st : PState) (pid : String) (derived : Option Nat) :
    (getOrDeriveSharedKey st pid derived).1.chats = st.chats := by
  unfold getOrDeriveSharedKey
  cases List.lookup pid st.contacts with
  | none => rfl
  | some c =>
      by_cases h : c.publicKey = none
      · simp [h]
      · cases List.lookup pid st.sharedKeys with
        | some k => simp [h]
        | none => cases derived with
            | some k => simp [h]
            | none => simp [h]

theorem gdsk_some (st : PState) (pid : String) (derived : Option Nat)
    (c : Contact) (pk : String)
    (hc : List.lookup pid st.contacts = some c) (hpk : c.publicKey = some pk)
    (hor : (List.lookup pid st.sharedKeys).isSome = true ∨ derived.isSome = true) :
    ((getOrDeriveSharedKey st pid derived).2).isSome = true := by
  unfold getOrDeriveSharedKey
  rw [hc]
  simp only
  rw [if_neg (by simp [hpk])]
  cases hsk : List.lookup pid st.sharedKeys with
  | some k => simp
  | none =>
      cases hd : derived with
      | some k => simp
      | none =>
          rw [hsk, hd] at hor
          simp at hor

/-- C5: a received `{message, e2e: true, iv, ct, sig}` whose signature over
the ciphertext fails verification is still stored in the chat — with the
sentinel content of line 2008 — a `{message-ack, id}` is sent because the
channel is open, and the data channel is not closed (the `message` branch
has no `conn.close()` path; lines 1993–2026). -/
theorem e2e_sig_mismatch_stored_not_dropped (st : PState) (pid : String)
    (d : MsgData) (derived : Option Nat) (decR : Option String) (freshId : String)
    (c : Contact) (pk : String)
    (h2e : d.e2e = true) (hct : d.ct.isSome = true) (hiv : d.iv.isSome = true)
    (hc : List.lookup pid st.contacts = some c) (hpk : c.publicKey = some pk)
    (hor : (List.lookup pid st.sharedKeys).isSome = true ∨ derived.isSome = true) :
    (messageStep st pid d derived (some false) decR freshId true).stored
        = { id := d.id.getD freshId, dir := "recv", content := unverifiedSentinel,
            ts := d.ts }
    ∧ (messageStep st pid d derived (some false) decR freshId true).acks = [d.id]
    ∧ (messageStep st pid d derived (some false) decR freshId true).closedConn = false
    ∧ List.lookup pid (messageStep st pid d derived (some false) decR freshId
        true).state.chats
      = some (((List.lookup pid st.chats).getD [])
          ++ [{ id := d.id.getD freshId, dir := "recv", content := unverifiedSentinel,
                ts := d.ts }]) := by
  have hchats0 :
      List.lookup pid (if (List.lookup pid st.chats).isSome then st.chats
        else upsertA st.chats pid []) = some ((List.lookup pid st.chats).getD []) := by
    cases hl : List.lookup pid st.chats with
    | some ms => simp [hl]
    | none => simp [hl, lookup_upsertA_self]
  set st0 : PState := { st with chats :=
    if (List.lookup pid st.chats).isSome then st.chats else upsertA st.chats pid [] }
    with hst0
  have hc0 : List.lookup pid st0.contacts = some c := hc
  have hsk0 : st0.sharedKeys = st.sharedKeys := rfl
  have hskSome : ((getOrDeriveSharedKey st0 pid derived).2).isSome = true :=
    gdsk_some st0 pid derived c pk hc0 hpk (by rw [hsk0] at *; exact hor)
  have hcpk : ((List.lookup pid (getOrDeriveSharedKey st0 pid derived).1.contacts).bind
      (fun c => c.publicKey)).isSome = true := by
    rw [gdsk_contacts_eq, hc0]
    simp [hpk]
  have hguard : (d.e2e ∧ d.ct.isSome ∧ d.iv.isSome) := ⟨h2e, hct, hiv⟩
  unfold messageStep
  simp only [← hst0]
  rw [if_pos hguard]
  rw [if_pos (And.intro hskSome hcpk)]
  refine ⟨rfl, rfl, trivial, ?_⟩
  rw [lookup_modifyA_self, gdsk_chats_eq, hchats0]
  simp

/-- Witness for C5: a concrete tampered message against a one-contact store
is stored with the sentinel, acked, and the channel stays open. -/
theorem e2e_sig_mismatch_witness :
    (List.lookup "app-aaaa" c1State.contacts
        = some { friendlyName := "Alice", publicKey := some "K" }
      ∧ ({ friendlyName := "Alice", publicKey := some "K" } : Contact).publicKey
          = some "K")
    ∧ (messageStep c1State "app-aaaa"
        { id := some "m1", ts := 42, e2e := true, iv := some "iv", ct := some "ct",
          sig := some "sig" } (some 7) (some false) none "f" true).stored
      = { id := "m1", dir := "recv", content := unverifiedSentinel, ts := 42 } :=
  ⟨⟨rfl, rfl⟩,
    (e2e_sig_mismatch_stored_not_dropped c1State "app-aaaa"
      { id := some "m1", ts := 42, e2e := true, iv := some "iv", ct := some "ct",
        sig := some "sig" } (some 7) none "f"
      { friendlyName := "Alice", publicKey := some "K" } "K"
      rfl rfl rfl rfl rfl (Or.inr rfl)).1⟩

-- ── C8: idempotence of incoming edit / delete / duplicate ack ────────────────

theorem modifyA_congr {α : Type} (m : AListM α) (k : String) {f g : α → α}
    (h : ∀ x, f x = g x) : modifyA m k f = modifyA m k g := by
  unfold modifyA
  apply List.map_congr_left
  intro q _
  by_cases hq : q.1 = k <;> simp [hq, h]

theorem updateFirst_eq_self {α : Type} (p : α → Bool) (f : α → α) :
    ∀ l : List α, (∀ x ∈ l, p x = true → f x = x) → updateFirst p f l = l := by
  intro l
  induction l with
  | nil => intro _; rfl
  | cons x xs ih =>
      intro h
      by_cases hx : p x = true
      · simp [updateFirst, hx, h x (by simp) hx]
      · simp [updateFirst, hx, ih (fun y hy => h y (by simp [hy]))]

theorem modifyA_eq_self {α : Type} (m : AListM α) (k : String) (g : α → α)
    (h : ∀ v, (k, v) ∈ m → g v = v) : modifyA m k g = m := by
  induction m with
  | nil => rfl
  | cons q t ih =>
      obtain ⟨a, b⟩ := q
      rw [modifyA_cons]
      by_cases hk : a = k
      · subst hk
        rw [if_pos rfl, h b (by simp), ih (fun v hv => h v (by simp [hv]))]
      · rw [if_neg hk, ih (fun v hv => h v (by simp [hv]))]

/-- C8: re-applying the same incoming `message-edit` or `message-delete`
leaves the chat state exactly as after the first application, and a
`message-ack` whose target sent message is already marked `delivered`
changes nothing: the handlers mutate the first matching message to a fixed
point (lines 2028–2084). -/
theorem recv_edit_delete_ack_idempotent (chats : AListM (List ChatMessage))
    (pid id c : String) :
    editRecvStep (editRecvStep chats pid id c) pid id c = editRecvStep chats pid id c
    ∧ deleteRecvStep (deleteRecvStep chats pid id) pid id = deleteRecvStep chats pid id
    ∧ ackRecvStep (ackRecvStep chats pid id) pid id = ackRecvStep chats pid id
    ∧ ((∀ q ∈ chats, q.1 = pid → ∀ m ∈ q.2,
          (m.id == id && m.dir == "sent") = true → m.status = some "delivered") →
        ackRecvStep chats pid id = chats) := by
  refine ⟨?_, ?_, ?_, ?_⟩
  · have hu := updateFirst_idem (fun m : ChatMessage => m.id == id)
      (fun m => if m.deleted then m else { m with content := c, edited := true })
      (fun x hx => by by_cases hd : x.deleted <;> simp [hd, hx])
      (fun x hx => by by_cases hd : x.deleted <;> simp [hd])
    cases hl : List.lookup pid chats with
    | none => simp [editRecvStep, hl]
    | some ms =>
        simp only [editRecvStep, hl]
        rw [lookup_modifyA_self, hl]
        simp only [Option.map_some']
        rw [modifyA_comp]
        exact modifyA_congr _ _ (fun l => hu l)
  · have hu := updateFirst_idem (fun m : ChatMessage => m.id == id)
      (fun m => { m with content := "", deleted := true })
      (fun x hx => by simp [hx])
      (fun x _ => by simp)
    cases hl : List.lookup pid chats with
    | none => simp [deleteRecvStep, hl]
    | some ms =>
        simp only [deleteRecvStep, hl]
        rw [lookup_modifyA_self, hl]
        simp only [Option.map_some']
        rw [modifyA_comp]
        exact modifyA_congr _ _ (fun l => hu l)
  · have hu := updateFirst_idem (fun m : ChatMessage => m.id == id && m.dir == "sent")
      (fun m => { m with status := some "delivered" })
      (fun x hx => by simpa using hx)
      (fun x _ => by simp)
    cases hl : List.lookup pid chats with
    | none => simp [ackRecvStep, hl]
    | some ms =>
        simp only [ackRecvStep, hl]
        rw [lookup_modifyA_self, hl]
        simp only [Option.map_some']
        rw [modifyA_comp]
        exact modifyA_congr _ _ (fun l => hu l)
  · intro hdeliv
    unfold ackRecvStep
    cases hl : List.lookup pid chats with
    | none => rfl
    | some ms =>
        simp only
        apply modifyA_eq_self
        intro v hv
        apply updateFirst_eq_self
        intro x hx hpx
        have hst : x.status = some "delivered" := hdeliv (pid, v) hv rfl x hx hpx
        cases x
        simp only at hst
        simp [hst]

/-- Witness for C8's conditional conjunct: an ack for the already-delivered
sent message `s2` leaves the chat map untouched. -/
theorem recv_edit_delete_ack_idempotent_witness :
    (∀ q ∈ c8Chats, q.1 = "app-aaaa" → ∀ m ∈ q.2,
        (m.id == "s2" && m.dir == "sent") = true → m.status = some "delivered")
    ∧ ackRecvStep c8Chats "app-aaaa" "s2" = c8Chats :=
  ⟨(by decide),
    (recv_edit_delete_ack_idempotent c8Chats "app-aaaa" "s2" "x").2.2.2 (by decide)⟩

-- ── C10: public editMessage/deleteMessage touch only own sent messages ───────

/-- C10: the public `editMessage`/`deleteMessage` operations are no-ops
(state unchanged, nothing sent on any channel) when the chat is unknown,
when no *sent* message carries the id (in particular when the id belongs to
a received message), and — for edit — when the matched sent message is
already deleted; they never change the contact store, and in every case the
non-`sent` (received) messages of every chat are left untouched. -/
theorem editMessage_deleteMessage_frame (st : PState) (pid id c : String)
    (derived : Option Nat) (hpkB encOk : Bool) :
    ((List.lookup pid st.chats = none ∨
        (∃ msgs, List.lookup pid st.chats = some msgs ∧
          msgs.find? (fun m => m.id == id && m.dir == "sent") = none)) →
      editMessage st pid id c derived hpkB encOk = (st, [])
      ∧ deleteMessage st pid id = (st, []))
    ∧ (∀ msgs m, List.lookup pid st.chats = some msgs →
        msgs.find? (fun m => m.id == id && m.dir == "sent") = some m →
        m.deleted = true → editMessage st pid id c derived hpkB encOk = (st, []))
    ∧ (editMessage st pid id c derived hpkB encOk).1.contacts = st.contacts
    ∧ (deleteMessage st pid id).1.contacts = st.contacts
    ∧ (∀ q, (List.lookup q (editMessage st pid id c derived hpkB encOk).1.chats).map
          (List.filter (fun m => m.dir != "sent"))
        = (List.lookup q st.chats).map (List.filter (fun m => m.dir != "sent")))
    ∧ (∀ q, (List.lookup q (deleteMessage st pid id).1.chats).map
          (List.filter (fun m => m.dir != "sent"))
        = (List.lookup q st.chats).map (List.filter (fun m => m.dir != "sent"))) := by
  have hfilterE : ∀ ms : List ChatMessage,
      (updateFirst (fun m => m.id == id && m.dir == "sent")
        (fun m => { m with content := c, edited := true }) ms).filter
          (fun m => m.dir != "sent")
      = ms.filter (fun m => m.dir != "sent") := by
    intro ms
    apply filter_updateFirst
    · intro x hx
      have hdir : x.dir = "sent" := by
        have h2 := hx
        simp only [Bool.and_eq_true] at h2
        exact eq_of_beq h2.2
      simp [hdir]
    · intro x
      simp
  have hfilterD : ∀ ms : List ChatMessage,
      (updateFirst (fun m => m.id == id && m.dir == "sent")
        (fun m => { m with content := "", deleted := true }) ms).filter
          (fun m => m.dir != "sent")
      = ms.filter (fun m => m.dir != "sent") := by
    intro ms
    apply filter_updateFirst
    · intro x hx
      have hdir : x.dir = "sent" := by
        have h2 := hx
        simp only [Bool.and_eq_true] at h2
        exact eq_of_beq h2.2
      simp [hdir]
    · intro x
      simp
  have hchatsFrame : ∀ (u : List ChatMessage → List ChatMessage),
      (∀ ms, (u ms).filter (fun m => m.dir != "sent") = ms.filter (fun m => m.dir != "sent")) →
      ∀ q, (List.lookup q (modifyA st.chats pid u)).map
          (List.filter (fun m => m.dir != "sent"))
        = (List.lookup q st.chats).map (List.filter (fun m => m.dir != "sent")) := by
    intro u hu q
    by_cases hq : q = pid
    · subst hq
      rw [lookup_modifyA_self]
      cases List.lookup q st.chats with
      | none => rfl
      | some ms => simp [hu ms]
    · rw [lookup_modifyA_ne _ _ _ _ hq]
  refine ⟨?_, ?_, ?_, ?_, ?_, ?_⟩
  · rintro (hl | ⟨msgs, hl, hf⟩)
    · constructor
      · simp [editMessage, hl]
      · simp [deleteMessage, hl]
    · constructor
      · simp [editMessage, hl, hf]
      · simp [deleteMessage, hl, hf]
  · intro msgs m hl hf hdel
    simp [editMessage, hl, hf, hdel]
  · unfold editMessage
    cases hl : List.lookup pid st.chats with
    | none => rfl
    | some msgs =>
        simp only
        cases hf : msgs.find? (fun m => m.id == id && m.dir == "sent") with
        | none => rfl
        | some m =>
            simp only
            by_cases hdel : m.deleted
            · rw [if_pos hdel]
            · rw [if_neg hdel]
              by_cases hconn : ((List.lookup pid st.contacts).bind
                  (fun c => c.connOpen)) = some true
              · rw [if_pos hconn]
                by_cases henc : ((getOrDeriveSharedKey
                    { st with chats := modifyA st.chats pid (updateFirst
                        (fun m => m.id == id && m.dir == "sent")
                        (fun m => { m with content := c, edited := true })) }
                    pid derived).2.isSome ∧ hpkB ∧ encOk)
                · rw [if_pos henc, gdsk_contacts_eq]
                · rw [if_neg henc, gdsk_contacts_eq]
              · rw [if_neg hconn]
  · unfold deleteMessage
    cases hl : List.lookup pid st.chats with
    | none => rfl
    | some msgs =>
        simp only
        cases hf : msgs.find? (fun m => m.id == id && m.dir == "sent") with
        | none => rfl
        | some m => rfl
  · intro q
    unfold editMessage
    cases hl : List.lookup pid st.chats with
    | none => rfl
    | some msgs =>
        simp only
        cases hf : msgs.find? (fun m => m.id == id && m.dir == "sent") with
        | none => rfl
        | some m =>
            simp only
            by_cases hdel : m.deleted
            · rw [if_pos hdel]
            · rw [if_neg hdel]
              by_cases hconn : ((List.lookup pid st.contacts).bind
                  (fun c => c.connOpen)) = some true
              · rw [if_pos hconn]
                by_cases henc : ((getOrDeriveSharedKey
                    { st with chats := modifyA st.chats pid (updateFirst
                        (fun m => m.id == id && m.dir == "sent")
                        (fun m => { m with content := c, edited := true })) }
                    pid derived).2.isSome ∧ hpkB ∧ encOk)
                · rw [if_pos henc, gdsk_chats_eq]
                  exact hchatsFrame _ hfilterE q
                · rw [if_neg henc, gdsk_chats_eq]
                  exact hchatsFrame _ hfilterE q
              · rw [if_neg hconn]
                exact hchatsFrame _ hfilterE q
  · intro q
    unfold deleteMessage
    cases hl : List.lookup pid st.chats with
    | none => rfl
    | some msgs =>
        simp only
        cases hf : msgs.find? (fun m => m.id == id && m.dir == "sent") with
        | none => rfl
        | some m =>
            simp only
            exact hchatsFrame _ hfilterD q

/-- Witness for C10 at a concrete store: the chat for `app-aaaa` holds one
received message `r1` and one deleted sent message `s1`; editing `r1`
(a received id) and editing `s1` (already deleted) are both complete
no-ops, as is deleting the unknown id `zz`. -/
theorem editMessage_deleteMessage_frame_witness :
    (List.lookup "app-aaaa" c10State.chats = some c10Msgs
      ∧ c10Msgs.find? (fun m => m.id == "r1" && m.dir == "sent") = none)
    ∧ editMessage c10State "app-aaaa" "r1" "x" none true true = (c10State, [])
    ∧ deleteMessage c10State "app-aaaa" "r1" = (c10State, [])
    ∧ editMessage c10State "app-aaaa" "s1" "x" none true true = (c10State, []) :=
  ⟨⟨rfl, rfl⟩,
    ((editMessage_deleteMessage_frame c10State "app-aaaa" "r1" "x" none true true).1
      (Or.inr ⟨c10Msgs, rfl, rfl⟩)).1,
    ((editMessage_deleteMessage_frame c10State "app-aaaa" "r1" "x" none true true).1
      (Or.inr ⟨c10Msgs, rfl, rfl⟩)).2,
    (editMessage_deleteMessage_frame c10State "app-aaaa" "s1" "x" none true true).2.1
      c10Msgs { id := "s1", dir := "sent", content := "", deleted := true } rfl rfl rfl⟩

-- ── C6: registry merge contact discipline ────────────────────────────────────

theorem modifyA_not_mem {α : Type} (l : AListM α) (k : String) (g : α → α)
    (h : k ∉ l.map Prod.fst) : modifyA l k g = l := by
  induction l with
  | nil => rfl
  | cons q t ih =>
      obtain ⟨a, b⟩ := q
      rw [modifyA_cons, if_neg (fun hak => h (by simp [hak]))]
      rw [ih (fun hm => h (by simp [hm]))]

theorem evolves_refl (peers : List PeerEntry) (myDiscID : String) (c : Contact) :
    contactMergeEvolves peers myDiscID c c :=
  ⟨rfl, rfl, rfl, rfl, rfl, rfl, rfl, rfl, Or.inl rfl, Or.inl ⟨rfl, rfl⟩⟩

theorem forall₂_merge_refl (peers : List PeerEntry) (myDiscID : String) :
    ∀ l : AListM Contact, List.Forall₂ (mergeRel peers myDiscID) l l := by
  intro l
  induction l with
  | nil => exact List.Forall₂.nil
  | cons q t ih => exact List.Forall₂.cons ⟨rfl, evolves_refl peers myDiscID q.2⟩ ih

theorem forall₂_mem_right {α β : Type} {R : α → β → Prop} :
    ∀ {l0 : List α} {l1 : List β}, List.Forall₂ R l0 l1 →
    ∀ b ∈ l1, ∃ a ∈ l0, R a b := by
  intro l0 l1 h
  induction h with
  | nil => intro b hb; cases hb
  | cons hab hf ih =>
      intro b hb
      rcases List.mem_cons.1 hb with hb | hb
      · subst hb
        exact ⟨_, by simp, hab⟩
      · obtain ⟨a, ha, hR⟩ := ih b hb
        exact ⟨a, by simp [ha], hR⟩

theorem lookup_some_mem_keys {α : Type} :
    ∀ (m : AListM α) (k : String) (v : α),
      List.lookup k m = some v → k ∈ m.map Prod.fst := by
  intro m
  induction m with
  | nil => intro k v h; cases h
  | cons q t ih =>
      intro k v h
      obtain ⟨a, b⟩ := q
      rw [lookup_cons] at h
      by_cases hk : k = a
      · simp [hk]
      · rw [if_neg hk] at h
        simp [ih k v h]

theorem findKeyA_lookup {α : Type} (p : String → α → Bool) :
    ∀ (m : AListM α) (k : String), (m.map Prod.fst).Nodup →
      findKeyA m p = some k →
      ∃ v, List.lookup k m = some v ∧ p k v = true := by
  intro m
  induction m with
  | nil => intro k _ h; cases h
  | cons q t ih =>
      intro k hnd h
      obtain ⟨a, b⟩ := q
      cases hp : p a b with
      | true =>
          have hk : k = a := by
            unfold findKeyA at h
            rw [List.find?_cons_of_pos _ (by simpa using hp)] at h
            simpa using h.symm
          subst hk
          exact ⟨b, by rw [lookup_cons, if_pos rfl], hp⟩
      | false =>
          have ht : findKeyA t p = some k := by
            unfold findKeyA at h ⊢
            rw [List.find?_cons_of_neg _ (by simpa using hp)] at h
            exact h
          rw [List.map_cons] at hnd
          have hnd' := List.nodup_cons.1 hnd
          obtain ⟨v, hv, hpv⟩ := ih k hnd'.2 ht
          have hka : k ≠ a := fun hka => by
            subst hka
            exact hnd'.1 (lookup_some_mem_keys t k v hv)
          exact ⟨v, by rw [lookup_cons, if_neg hka]; exact hv, hpv⟩

theorem evolves_set_onNetwork (peers : List PeerEntry) (myDiscID : String)
    (p : PeerEntry) (hp : p ∈ peers) (hne : p.discoveryID ≠ myDiscID)
    (c0 c : Contact) (h : contactMergeEvolves peers myDiscID c0 c)
    (hmatch : (p.publicKey.isSome = true ∧ c.publicKey = p.publicKey)
        ∨ c.discoveryUUID = extractDiscUUID p.discoveryID) :
    contactMergeEvolves peers myDiscID c0
      { c with onNetwork := true, networkDiscID := some p.discoveryID } := by
  obtain ⟨h1, h2, h3, h4, h5, h6, h7, h8, h9, _⟩ := h
  refine ⟨h1, h2, h3, h4, h5, h6, h7, h8, h9, Or.inr ⟨rfl, p, hp, hne, rfl, ?_⟩⟩
  rcases hmatch with hm | hm
  · exact Or.inl hm
  · exact Or.inr (by rw [← h3]; exact hm)

theorem evolves_store_pk (peers : List PeerEntry) (myDiscID : String)
    (p : PeerEntry) (hp : p ∈ peers) (hself : p.discoveryID ≠ myDiscID)
    (hpk : p.publicKey.isSome = true)
    (c0 c : Contact) (hc : c.publicKey = none)
    (huuid : c.discoveryUUID = extractDiscUUID p.discoveryID)
    (h : contactMergeEvolves peers myDiscID c0 c) :
    contactMergeEvolves peers myDiscID c0 { c with publicKey := p.publicKey } := by
  obtain ⟨h1, h2, h3, h4, h5, h6, h7, h8, h9, h10⟩ := h
  have hc0 : c0.publicKey = none := by
    rcases h9 with h9 | ⟨_, hne, _⟩
    · rw [← h9, hc]
    · exact absurd hc hne
  have hc0u : c0.discoveryUUID = extractDiscUUID p.discoveryID := by
    rw [← h3]
    exact huuid
  refine ⟨h1, h2, h3, h4, h5, h6, h7, h8, ?_, ?_⟩
  · exact Or.inr ⟨hc0, by simp [Option.isSome_iff_ne_none.1 hpk], p, hp, hself, rfl, hc0u⟩
  · rcases h10 with ⟨ha, hb⟩ | ⟨ha, q, hq, hqe, hb, hmq⟩
    · exact Or.inl ⟨ha, hb⟩
    · refine Or.inr ⟨ha, q, hq, hqe, hb, ?_⟩
      rcases hmq with ⟨hqs, hqpk⟩ | hqu
      · rw [hc] at hqpk
        exact absurd hqpk.symm (Option.isSome_iff_ne_none.1 hqs)
      · exact Or.inr hqu

theorem forall₂_merge_modifyA (peers : List PeerEntry) (myDiscID : String)
    (kp : String) (g : Contact → Contact) :
    ∀ (l0 l1 : AListM Contact),
      List.Forall₂ (mergeRel peers myDiscID) l0 l1 →
      (l1.map Prod.fst).Nodup →
      (∀ a b, contactMergeEvolves peers myDiscID a b → List.lookup kp l1 = some b →
        contactMergeEvolves peers myDiscID a (g b)) →
      List.Forall₂ (mergeRel peers myDiscID) l0 (modifyA l1 kp g) := by
  intro l0 l1 hf
  induction hf with
  | nil => intro _ _; exact List.Forall₂.nil
  | cons hab hf' ih =>
      rename_i a b l0' l1'
      intro hnd himp
      obtain ⟨k1, c1⟩ := b
      rw [modifyA_cons]
      have hnd' : k1 ∉ l1'.map Prod.fst ∧ (l1'.map Prod.fst).Nodup := by
        rw [List.map_cons] at hnd
        exact List.nodup_cons.1 hnd
      by_cases hk : k1 = kp
      · subst hk
        rw [if_pos rfl]
        rw [modifyA_not_mem l1' k1 g hnd'.1]
        refine List.Forall₂.cons ⟨hab.1, ?_⟩ hf'
        exact himp a.2 c1 hab.2 (by rw [lookup_cons, if_pos rfl])
      · rw [if_neg hk]
        refine List.Forall₂.cons hab ?_
        apply ih
        · exact hnd'.2
        · intro a' b' hR hlook
          apply himp a' b' hR
          rw [lookup_cons, if_neg (fun hkk => hk (hkk.symm))]
          exact hlook

theorem nsMergeMatch_preserves (peers : List PeerEntry) (myDiscID : String)
    (p : PeerEntry) (hp : p ∈ peers) (hself : p.discoveryID ≠ myDiscID)
    (cts0 cts : AListM Contact) (saved : Bool)
    (hf : List.Forall₂ (mergeRel peers myDiscID) cts0 cts)
    (hnd : (cts.map Prod.fst).Nodup) :
    List.Forall₂ (mergeRel peers myDiscID) cts0 (nsMergeMatch p cts saved).2.1
    ∧ (((nsMergeMatch p cts saved).2.1).map Prod.fst).Nodup := by
  unfold nsMergeMatch
  simp only
  cases hk : findKeyA cts (nsMatchPred p) with
  | none => exact ⟨hf, hnd⟩
  | some kp =>
      simp only
      obtain ⟨v, hv, hpredv⟩ := findKeyA_lookup (nsMatchPred p) cts kp hnd hk
      have hvmatch : (p.publicKey.isSome = true ∧ v.publicKey = p.publicKey)
          ∨ v.discoveryUUID = extractDiscUUID p.discoveryID := by
        have hb := hpredv
        simp only [nsMatchPred, Bool.or_eq_true, Bool.and_eq_true,
          decide_eq_true_eq] at hb
        rcases hb with ⟨⟨h1, -⟩, h2⟩ | hr
        · exact Or.inl ⟨h1, h2⟩
        · exact Or.inr hr
      have hlook1 : List.lookup kp (modifyA cts kp (fun c =>
          { c with onNetwork := true, networkDiscID := some p.discoveryID }))
          = some { v with onNetwork := true, networkDiscID := some p.discoveryID } := by
        rw [lookup_modifyA_self, hv]
        rfl
      have hf1 : List.Forall₂ (mergeRel peers myDiscID) cts0
          (modifyA cts kp (fun c =>
            { c with onNetwork := true, networkDiscID := some p.discoveryID })) := by
        apply forall₂_merge_modifyA peers myDiscID kp _ cts0 cts hf hnd
        intro a b hR hlook
        have hbv : v = b := by
          rw [hv] at hlook
          exact Option.some.inj hlook
        subst hbv
        exact evolves_set_onNetwork peers myDiscID p hp hself a v hR hvmatch
      have hnd1 : ((modifyA cts kp (fun c =>
          { c with onNetwork := true, networkDiscID := some p.discoveryID })).map
            Prod.fst).Nodup := by
        rw [modifyA_map_fst]; exact hnd
      by_cases hcond : p.publicKey.isSome = true
          ∧ ((List.lookup kp (modifyA cts kp (fun c =>
              { c with onNetwork := true, networkDiscID := some p.discoveryID }))).bind
                (fun c => c.publicKey)) = none
      · rw [if_pos (by exact ⟨hcond.1, hcond.2⟩)]
        dsimp only
        constructor
        · apply forall₂_merge_modifyA peers myDiscID kp _ cts0 _ hf1 hnd1
          intro a b hR hlook
          have hbv : b.publicKey = v.publicKey ∧ b.discoveryUUID = v.discoveryUUID := by
            rw [hlook1] at hlook
            have h := Option.some.inj hlook
            rw [← h]
            exact ⟨rfl, rfl⟩
          have hbpk : b.publicKey = none := by
            have h2 := hcond.2
            rw [hlook] at h2
            simpa using h2
          have huuidb : b.discoveryUUID = extractDiscUUID p.discoveryID := by
            rcases hvmatch with ⟨hs, hpkv⟩ | hu
            · have hvn : v.publicKey = none := by
                rw [← hbv.1]
                exact hbpk
              rw [hvn] at hpkv
              exact absurd hpkv.symm (Option.isSome_iff_ne_none.1 hs)
            · rw [hbv.2]
              exact hu
          exact evolves_store_pk peers myDiscID p hp hself hcond.1 a b hbpk huuidb hR
        · rw [modifyA_map_fst]; exact hnd1
      · rw [if_neg hcond]
        exact ⟨hf1, hnd1⟩

theorem nsMergeMatch_establishes (p : PeerEntry) (cts : AListM Contact)
    (saved : Bool) (kp : String)
    (hnd : (cts.map Prod.fst).Nodup)
    (hk : findKeyA cts (nsMatchPred p) = some kp) :
    ∃ c', List.lookup kp (nsMergeMatch p cts saved).2.1 = some c'
      ∧ c'.onNetwork = true
      ∧ c'.networkDiscID = some p.discoveryID
      ∧ ((p.publicKey.isSome = true
            ∧ (List.lookup kp cts).bind (fun x => x.publicKey) = none) →
          c'.publicKey = p.publicKey ∧ (nsMergeMatch p cts saved).2.2 = true)
      ∧ (∀ c0, List.lookup kp cts = some c0 → c0.publicKey.isSome = true →
          c'.publicKey = c0.publicKey) := by
  obtain ⟨v, hv, hpredv⟩ := findKeyA_lookup (nsMatchPred p) cts kp hnd hk
  unfold nsMergeMatch
  rw [hk]
  simp only
  have hlook1 : List.lookup kp (modifyA cts kp (fun c =>
      { c with onNetwork := true, networkDiscID := some p.discoveryID }))
      = some { v with onNetwork := true, networkDiscID := some p.discoveryID } := by
    rw [lookup_modifyA_self, hv]
    rfl
  by_cases hcond : p.publicKey.isSome = true
      ∧ ((List.lookup kp (modifyA cts kp (fun c =>
          { c with onNetwork := true, networkDiscID := some p.discoveryID }))).bind
            (fun c => c.publicKey)) = none
  · rw [if_pos hcond]
    dsimp only
    refine ⟨{ v with onNetwork := true, networkDiscID := some p.discoveryID, publicKey := p.publicKey }, ?_, rfl, rfl, fun _ => ⟨rfl, rfl⟩, ?_⟩
    · rw [lookup_modifyA_self, hlook1]
      rfl
    · intro c0 hc0 hc0s
      rw [hv] at hc0
      have hvc0 : v = c0 := Option.some.inj hc0
      subst hvc0
      have hvn : v.publicKey = none := by
        have h2 := hcond.2
        rw [hlook1] at h2
        exact h2
      rw [hvn] at hc0s
      simp at hc0s
  · rw [if_neg hcond]
    dsimp only
    refine ⟨{ v with onNetwork := true, networkDiscID := some p.discoveryID },
        hlook1, rfl, rfl, ?_, ?_⟩
    · intro hcc
      exfalso
      have hvn : v.publicKey = none := by
        have h2 := hcc.2
        rw [hv] at h2
        simpa using h2
      exact hcond ⟨hcc.1, by rw [hlook1]; exact hvn⟩
    · intro c0 hc0 hc0s
      rw [hv] at hc0
      have hvc0 : v = c0 := Option.some.inj hc0
      subst hvc0
      rfl

theorem nsMergeStep_contacts (myDiscID : String) (now : Nat)
    (acc : AListM RegEntry × AListM Contact × Bool) (p : PeerEntry) :
    (nsMergeStep myDiscID now acc p).2.1
      = if p.discoveryID = myDiscID then acc.2.1
        else (nsMergeMatch p acc.2.1 acc.2.2).2.1 := by
  by_cases h : p.discoveryID = myDiscID <;> simp [nsMergeStep, h]

theorem nsMerge_fold_preserves (peers : List PeerEntry) (myDiscID : String)
    (now : Nat) (cts0 : AListM Contact) :
    ∀ (l : List PeerEntry), (∀ p ∈ l, p ∈ peers) →
    ∀ (reg0 : AListM RegEntry) (cts : AListM Contact) (saved : Bool),
      List.Forall₂ (mergeRel peers myDiscID) cts0 cts →
      (cts.map Prod.fst).Nodup →
      List.Forall₂ (mergeRel peers myDiscID) cts0
        ((l.foldl (nsMergeStep myDiscID now) (reg0, cts, saved)).2.1)
      ∧ (((l.foldl (nsMergeStep myDiscID now) (reg0, cts, saved)).2.1).map
          Prod.fst).Nodup := by
  intro l
  induction l with
  | nil => intro _ reg0 cts saved hf hnd; exact ⟨hf, hnd⟩
  | cons p rest ih =>
      intro hsub reg0 cts saved hf hnd
      rw [List.foldl_cons]
      have heta : nsMergeStep myDiscID now (reg0, cts, saved) p
          = ((nsMergeStep myDiscID now (reg0, cts, saved) p).1,
             (nsMergeStep myDiscID now (reg0, cts, saved) p).2.1,
             (nsMergeStep myDiscID now (reg0, cts, saved) p).2.2) := rfl
      have hstep := nsMergeStep_contacts myDiscID now (reg0, cts, saved) p
      rw [heta, hstep]
      by_cases hself : p.discoveryID = myDiscID
      · rw [if_pos hself]
        exact ih (fun q hq => hsub q (by simp [hq])) _ _ _ hf hnd
      · rw [if_neg hself]
        have hm := nsMergeMatch_preserves peers myDiscID p (hsub p (by simp)) hself
          cts0 cts saved hf hnd
        exact ih (fun q hq => hsub q (by simp [hq])) _ _ _ hm.1 hm.2

/-- C6 (amended): a registry merge never touches the shared-key cache or
the chats; contacts evolve only as `contactMergeEvolves` allows (fields
other than onNetwork/networkDiscID/publicKey untouched; a public key only
acquired when previously absent, from a non-self broadcast entry that
matched the contact by discovery UUID; on-network marking only from a
non-self broadcast entry that matched the contact by public key or by
discovery UUID) — relative to the reset-to-(false, null) contact list in
the public namespace, but relative to the *unreset* contact list in
custom/rendezvous namespaces; in the public namespace every contact
therefore ends either fully off-network or marked by some non-self entry
of this broadcast that matched it.  Conversely (last conjunct), each loop
iteration whose entry matches a contact *does* establish the marks: the
matched contact comes out with `onNetwork = true` and `networkDiscID` set
to the entry's discovery ID, the entry's key is stored (and the saved flag
raised) exactly when the entry carries one and the contact lacked one, and
a contact that already had a key keeps it. -/
theorem nsMergeRegistry_contact_discipline (registry : AListM RegEntry)
    (st : PState) (isPub : Bool) (myDiscID : String) (peers : List PeerEntry)
    (now : Nat) (hnd : (st.contacts.map Prod.fst).Nodup) :
    (nsMergeRegistry registry st isPub myDiscID peers now).state.sharedKeys
        = st.sharedKeys
    ∧ (nsMergeRegistry registry st isPub myDiscID peers now).state.chats = st.chats
    ∧ (isPub = false →
        List.Forall₂ (mergeRel peers myDiscID) st.contacts
          (nsMergeRegistry registry st isPub myDiscID peers now).state.contacts)
    ∧ (isPub = true →
        List.Forall₂ (mergeRel peers myDiscID)
          (st.contacts.map (fun q =>
            (q.1, { q.2 with onNetwork := false, networkDiscID := none })))
          (nsMergeRegistry registry st isPub myDiscID peers now).state.contacts)
    ∧ (isPub = true →
        ∀ q ∈ (nsMergeRegistry registry st isPub myDiscID peers now).state.contacts,
          (q.2.onNetwork = false ∧ q.2.networkDiscID = none)
          ∨ (q.2.onNetwork = true ∧ ∃ p ∈ peers, p.discoveryID ≠ myDiscID
              ∧ q.2.networkDiscID = some p.discoveryID
              ∧ ((p.publicKey.isSome = true ∧ q.2.publicKey = p.publicKey)
                  ∨ q.2.discoveryUUID = extractDiscUUID p.discoveryID)))
    ∧ (∀ p cts saved kp, (cts.map Prod.fst).Nodup →
        findKeyA cts (nsMatchPred p) = some kp →
        ∃ c', List.lookup kp (nsMergeMatch p cts saved).2.1 = some c'
          ∧ c'.onNetwork = true ∧ c'.networkDiscID = some p.discoveryID
          ∧ ((p.publicKey.isSome = true
                ∧ (List.lookup kp cts).bind (fun x => x.publicKey) = none) →
              c'.publicKey = p.publicKey ∧ (nsMergeMatch p cts saved).2.2 = true)
          ∧ (∀ c0, List.lookup kp cts = some c0 → c0.publicKey.isSome = true →
              c'.publicKey = c0.publicKey)) := by
  have hmapfst : ∀ l : AListM Contact,
      ((l.map (fun q =>
        (q.1, { q.2 with onNetwork := false, networkDiscID := none }))).map Prod.fst)
      = l.map Prod.fst := by
    intro l
    rw [List.map_map]
    apply List.map_congr_left
    intro q _
    rfl
  have h4 : isPub = true →
      List.Forall₂ (mergeRel peers myDiscID)
        (st.contacts.map (fun q =>
          (q.1, { q.2 with onNetwork := false, networkDiscID := none })))
        (nsMergeRegistry registry st isPub myDiscID peers now).state.contacts := by
    intro hp
    simp only [nsMergeRegistry, hp]
    exact (nsMerge_fold_preserves peers myDiscID now
      (st.contacts.map (fun q =>
        (q.1, { q.2 with onNetwork := false, networkDiscID := none }))) peers
      (fun _ hq => hq) _ _ false
      (forall₂_merge_refl peers myDiscID _) (by rw [hmapfst]; exact hnd)).1
  refine ⟨rfl, rfl, ?_, h4, ?_, ?_⟩
  · intro hp
    simp only [nsMergeRegistry, hp]
    exact (nsMerge_fold_preserves peers myDiscID now st.contacts peers
      (fun _ hq => hq) _ st.contacts false
      (forall₂_merge_refl peers myDiscID st.contacts) hnd).1
  · intro hp q hq
    obtain ⟨a, ha, hrel⟩ := forall₂_mem_right (h4 hp) q hq
    obtain ⟨x, _, hx⟩ := List.mem_map.1 ha
    obtain ⟨-, -, h3, -, -, -, -, -, -, h10⟩ := hrel.2
    rcases h10 with ⟨hon, hid⟩ | ⟨hon, p, hpmem, hpne, hid, hmq⟩
    · left
      subst hx
      exact ⟨hon, hid⟩
    · right
      refine ⟨hon, p, hpmem, hpne, hid, ?_⟩
      rcases hmq with hm | hm
      · exact Or.inl hm
      · exact Or.inr (by rw [h3]; exact hm)
  · intro p cts saved kp hnd0 hk
    exact nsMergeMatch_establishes p cts saved kp hnd0 hk

/-- C6 counterexample: on a **custom** (non-public) namespace the merge
performs no reset — `app-p2`, matched by nothing in this broadcast, keeps
`onNetwork = true` — and although `app-p1` acquires the broadcast public
key `K`, no shared key is derived or cached (the claim requires the reset
first and a shared-key re-derivation). -/
theorem nsMerge_custom_keeps_stale_onNetwork_and_no_rederive :
    ((List.lookup "app-p2"
        (nsMergeRegistry c6Registry c6State false "app-ip-me" c6Peers 9).state.contacts).map
      (fun c => c.onNetwork)) = some true
    ∧ ((List.lookup "app-p1"
        (nsMergeRegistry c6Registry c6State false "app-ip-me" c6Peers 9).state.contacts).map
      (fun c => c.publicKey)) = some (some "K")
    ∧ (nsMergeRegistry c6Registry c6State false "app-ip-me" c6Peers 9).state.sharedKeys
        = [] := by
  refine ⟨?_, ?_, ?_⟩ <;> rfl

/-- Witness for the amended C6 theorem at the concrete public-namespace
scenario: the key-nodup hypothesis holds, the shared-key cache is
untouched, and every contact after the merge is either fully off-network
or marked by a non-self entry of the broadcast. -/
theorem nsMergeRegistry_contact_discipline_witness :
    (c6State.contacts.map Prod.fst).Nodup
    ∧ (nsMergeRegistry c6Registry c6State true "app-ip-me" c6Peers 9).state.sharedKeys
        = c6State.sharedKeys
    ∧ (∀ q ∈ (nsMergeRegistry c6Registry c6State true "app-ip-me" c6Peers 9).state.contacts,
        (q.2.onNetwork = false ∧ q.2.networkDiscID = none)
        ∨ (q.2.onNetwork = true ∧ ∃ p ∈ c6Peers, p.discoveryID ≠ "app-ip-me"
            ∧ q.2.networkDiscID = some p.discoveryID
            ∧ ((p.publicKey.isSome = true ∧ q.2.publicKey = p.publicKey)
                ∨ q.2.discoveryUUID = extractDiscUUID p.discoveryID))) :=
  ⟨(by decide),
    (nsMergeRegistry_contact_discipline c6Registry c6State true "app-ip-me" c6Peers 9
      (by decide)).1,
    (nsMergeRegistry_contact_discipline c6Registry c6State true "app-ip-me" c6Peers 9
      (by decide)).2.2.2.2.1 rfl⟩

-- ── C4: migrateContact postconditions ────────────────────────────────────────

theorem eraseA_append {α : Type} (l1 l2 : AListM α) (k : String) :
    eraseA (l1 ++ l2) k = eraseA l1 k ++ eraseA l2 k := by
  unfold eraseA
  rw [List.filter_append]

theorem tsLe_trans : ∀ a b c : ChatMessage,
    tsLe a b = true → tsLe b c = true → tsLe a c = true := by
  intro a b c hab hbc
  simp only [tsLe, decide_eq_true_eq] at *
  omega

theorem tsLe_total : ∀ a b : ChatMessage, (tsLe a b || tsLe b a) = true := by
  intro a b
  simp only [tsLe]
  rcases Nat.le_total a.ts b.ts with h | h <;> simp [h]

theorem mergeSort_ts_sorted (l : List ChatMessage) :
    (List.mergeSort l tsLe).Pairwise (fun a b => a.ts ≤ b.ts) := by
  have h := @List.sorted_mergeSort ChatMessage tsLe tsLe_trans tsLe_total l
  exact h.imp (fun hab => by simpa [tsLe] using hab)

theorem mergeSort_ids_nodup (l : List ChatMessage)
    (h : (l.map (fun m => m.id)).Nodup) :
    ((List.mergeSort l tsLe).map (fun m => m.id)).Nodup :=
  (List.Perm.nodup_iff (List.Perm.map _ (List.mergeSort_perm l tsLe))).2 h

/-- After erasing `oldPID` and appending `(newPID, c')` with the target key,
the public-key lookup lands on `newPID`, provided no other contact carried
that key. -/
theorem findContact_after_migrate (l : AListM Contact) (oldPID newPID : String)
    (c' : Contact) (pk : String)
    (honly : ∀ q ∈ l, q.1 ≠ oldPID → q.2.publicKey ≠ some pk)
    (hc' : c'.publicKey = some pk) :
    findContactByPublicKey (eraseA l oldPID ++ [(newPID, c')]) pk none
      = some newPID := by
  unfold findContactByPublicKey findKeyA
  rw [List.find?_append]
  have h1 : (eraseA l oldPID).find? (fun q =>
      decide (some q.1 ≠ none) && decide (q.2.publicKey = some pk)) = none := by
    apply List.find?_eq_none.2
    intro q hq
    have hmem : q ∈ l ∧ q.1 ≠ oldPID := by
      have := List.mem_filter.1 hq
      exact ⟨this.1, by simpa using this.2⟩
    simp [honly q hmem.1 hmem.2]
  rw [h1]
  simp [hc']

/-- C4 (amended): `migrateContact(old, new)` with `old ≠ new` and an
existing contact at `old` always removes the record, the chat history and
the cached shared key keyed by `old` — unconditionally, whatever is keyed
at `new` (conjuncts one to three).  When additionally no contact is keyed
by `new`, no other contact shares `old`'s public key, no shared key is
cached for `new`, and the involved chat histories are ts-sorted and
id-unique, then the public-key lookup resolves to `new`, the history under
`new` is ts-sorted and id-unique, and the cached shared key of `old` (if
any) has moved to `new` (conjunct four).  (The unamended claim fails when
`new` already exists with a different key, when `new` already holds a
cached shared key — the old one is then dropped, not moved — and when
`chats[old]` is adopted unsorted without a merge.) -/
theorem migrateContact_spec (st : PState) (oldPID newPID : String) (c : Contact)
    (hne : oldPID ≠ newPID)
    (hold : List.lookup oldPID st.contacts = some c) :
    (migrateContact st oldPID newPID).map
        (fun r => List.lookup oldPID r.state.contacts) = some none
    ∧ (migrateContact st oldPID newPID).map
        (fun r => List.lookup oldPID r.state.chats) = some none
    ∧ (migrateContact st oldPID newPID).map
        (fun r => List.lookup oldPID r.state.sharedKeys) = some none
    ∧ (∀ pk, c.publicKey = some pk →
        (∀ q ∈ st.contacts, q.1 ≠ oldPID → q.2.publicKey ≠ some pk) →
        List.lookup newPID st.contacts = none →
        List.lookup newPID st.sharedKeys = none →
        (∀ ms, List.lookup oldPID st.chats = some ms →
            ms.Pairwise (fun a b => a.ts ≤ b.ts) ∧ (ms.map (fun m => m.id)).Nodup) →
        (∀ ms, List.lookup newPID st.chats = some ms →
            ms.Pairwise (fun a b => a.ts ≤ b.ts) ∧ (ms.map (fun m => m.id)).Nodup) →
        (migrateContact st oldPID newPID).map
            (fun r => findContactByPublicKey r.state.contacts pk none)
          = some (some newPID)
        ∧ (∀ ms, (migrateContact st oldPID newPID).map
              (fun r => List.lookup newPID r.state.chats) = some (some ms) →
            ms.Pairwise (fun a b => a.ts ≤ b.ts) ∧ (ms.map (fun m => m.id)).Nodup)
        ∧ (∀ k, List.lookup oldPID st.sharedKeys = some k →
            (migrateContact st oldPID newPID).map
              (fun r => List.lookup newPID r.state.sharedKeys) = some (some k))) := by
  refine ⟨?_, ?_, ?_, ?_⟩
  · cases hnewc : List.lookup newPID st.contacts with
    | none =>
        unfold migrateContact
        rw [if_neg hne, hold, hnewc]
        simp only [Option.getD_some, Option.map_some']
        exact congrArg some (lookup_eraseA_self _ _)
    | some cNew =>
        unfold migrateContact
        rw [if_neg hne, hold, hnewc]
        simp only [Option.getD_some]
        by_cases hc : c.publicKey.isSome = true ∧ cNew.publicKey = none
        · rw [if_pos hc]
          simp only [Option.map_some']
          exact congrArg some (lookup_eraseA_self _ _)
        · rw [if_neg hc]
          simp only [Option.map_some']
          exact congrArg some (lookup_eraseA_self _ _)
  · cases hnewc : List.lookup newPID st.contacts with
    | none =>
        unfold migrateContact
        rw [if_neg hne, hold, hnewc]
        simp only [Option.getD_some, Option.map_some']
        cases hoc : List.lookup oldPID st.chats with
        | none => exact congrArg some hoc
        | some oldMsgs => exact congrArg some (lookup_eraseA_self _ _)
    | some cNew =>
        unfold migrateContact
        rw [if_neg hne, hold, hnewc]
        simp only [Option.getD_some]
        by_cases hc : c.publicKey.isSome = true ∧ cNew.publicKey = none
        · rw [if_pos hc]
          simp only [Option.map_some']
          cases hoc : List.lookup oldPID st.chats with
          | none => exact congrArg some hoc
          | some oldMsgs => exact congrArg some (lookup_eraseA_self _ _)
        · rw [if_neg hc]
          simp only [Option.map_some']
          cases hoc : List.lookup oldPID st.chats with
          | none => exact congrArg some hoc
          | some oldMsgs => exact congrArg some (lookup_eraseA_self _ _)
  · cases hnewc : List.lookup newPID st.contacts with
    | none =>
        unfold migrateContact
        rw [if_neg hne, hold, hnewc]
        simp only [Option.getD_some, Option.map_some']
        exact congrArg some (lookup_eraseA_self _ _)
    | some cNew =>
        unfold migrateContact
        rw [if_neg hne, hold, hnewc]
        simp only [Option.getD_some]
        by_cases hc : c.publicKey.isSome = true ∧ cNew.publicKey = none
        · rw [if_pos hc]
          simp only [Option.map_some']
          exact congrArg some (lookup_eraseA_self _ _)
        · rw [if_neg hc]
          simp only [Option.map_some']
          exact congrArg some (lookup_eraseA_self _ _)
  · intro pk hpk honly hnew hsknew holdChats hnewChats
    have hups : upsertA st.contacts newPID { c with connOpen := none }
        = st.contacts ++ [(newPID, { c with connOpen := none })] := by
      unfold upsertA
      rw [hnew]
      simp
    have herase1 : eraseA [(newPID, { c with connOpen := none })] oldPID
        = [(newPID, { c with connOpen := none })] := by
      rw [eraseA_cons, if_neg (fun h => hne h.symm)]
      rfl
    refine ⟨?_, ?_, ?_⟩
    · unfold migrateContact
      rw [if_neg hne, hold, hnew]
      simp only [Option.getD_some, Option.map_some']
      rw [hups, eraseA_append, herase1]
      exact congrArg some (findContact_after_migrate st.contacts oldPID newPID _ pk honly
        (by simpa using hpk))
    · intro ms hms
      unfold migrateContact at hms
      rw [if_neg hne, hold, hnew] at hms
      simp only [Option.getD_some, Option.map_some', Option.some.injEq] at hms
      cases hoc : List.lookup oldPID st.chats with
      | none =>
          rw [hoc] at hms
          simp only at hms
          exact hnewChats ms hms
      | some oldMsgs =>
          rw [hoc] at hms
          simp only at hms
          cases hnc : List.lookup newPID st.chats with
          | none =>
              rw [hnc] at hms
              simp only at hms
              rw [lookup_eraseA_ne _ _ _ (fun h => hne h.symm),
                lookup_upsertA_self] at hms
              cases hms
              exact holdChats ms hoc
          | some newMsgs =>
              rw [hnc] at hms
              simp only at hms
              rw [lookup_eraseA_ne _ _ _ (fun h => hne h.symm),
                lookup_upsertA_self] at hms
              cases hms
              constructor
              · exact mergeSort_ts_sorted _
              · apply mergeSort_ids_nodup
                rw [List.map_append, List.nodup_append]
                refine ⟨(hnewChats newMsgs hnc).2, ?_, ?_⟩
                · exact List.Sublist.nodup
                    (List.Sublist.map _ (List.filter_sublist oldMsgs))
                    (holdChats oldMsgs hoc).2
                · intro x hx
                  simp only [List.mem_map] at hx ⊢
                  obtain ⟨m, hm, hmx⟩ := hx
                  intro ⟨m2, hm2, hmx2⟩
                  have hmem := List.mem_filter.1 hm2
                  have hnotin : m2.id ∉ newMsgs.map (fun m => m.id) := by
                    simpa using hmem.2
                  exact hnotin (by
                    rw [hmx2, ← hmx]
                    exact List.mem_map.2 ⟨m, hm, rfl⟩)
    · intro k hk
      unfold migrateContact
      rw [if_neg hne, hold, hnew]
      simp only [Option.getD_some, Option.map_some']
      rw [hk, hsknew]
      show some (List.lookup newPID (eraseA (upsertA st.sharedKeys newPID k) oldPID))
        = some (some k)
      rw [lookup_eraseA_ne _ _ _ (fun h => hne h.symm), lookup_upsertA_self]

/-- C4 counterexample: at `c4State`, after `migrateContact("app-old",
"app-new")` the claim's postconditions fail: `findByPublicKey(K)` returns
nothing (not `app-new` — the existing record's key `K2` is preserved), the
history adopted under `app-new` is the untouched unsorted, id-duplicated
list, and the cached shared key of `app-old` was dropped, not moved
(`app-new` keeps key 2). -/
theorem migrateContact_claim_fails_at_c4State :
    (migrateContact c4State "app-old" "app-new").map
        (fun r => findContactByPublicKey r.state.contacts "K" none) = some none
    ∧ (migrateContact c4State "app-old" "app-new").map
        (fun r => List.lookup "app-new" r.state.chats)
      = some (some [{ id := "a", dir := "recv", content := "x", ts := 5 },
                    { id := "a", dir := "recv", content := "y", ts := 3 }])
    ∧ (migrateContact c4State "app-old" "app-new").map
        (fun r => List.lookup "app-new" r.state.sharedKeys) = some (some 2) := by
  refine ⟨?_, ?_, ?_⟩ <;> rfl

/-- Witness for the amended C4 theorem: a one-contact store where `app-old`
holds key `K`, a sorted id-unique history and a cached shared key, and
nothing is keyed by `app-new`. -/
theorem migrateContact_spec_witness :
    ("app-old" ≠ "app-new"
      ∧ List.lookup "app-old" c4WitnessState.contacts
          = some { friendlyName := "C", publicKey := some "K" }
      ∧ List.lookup "app-new" c4WitnessState.contacts = none)
    ∧ (migrateContact c4WitnessState "app-old" "app-new").map
        (fun r => findContactByPublicKey r.state.contacts "K" none)
      = some (some "app-new")
    ∧ (migrateContact c4WitnessState "app-old" "app-new").map
        (fun r => List.lookup "app-old" r.state.contacts) = some none :=
  ⟨⟨(by decide), rfl, rfl⟩,
    ((migrateContact_spec c4WitnessState "app-old" "app-new"
      { friendlyName := "C", publicKey := some "K" }
      (by decide) rfl).2.2.2 "K" rfl (by decide) rfl rfl
      (by intro ms hms; cases hms; exact ⟨(by decide), (by decide)⟩)
      (by intro ms hms; cases hms)).1,
    (migrateContact_spec c4WitnessState "app-old" "app-new"
      { friendlyName := "C", publicKey := some "K" }
      (by decide) rfl).1⟩

/-- Witness for the amended C2 theorem: with all signed fields present and
a failing verification, the handler closes the connection, migrates nothing
and leaves the state untouched. -/
theorem rvzHandleExchange_gate_spec_witness :
    (rvzHandleExchange c2State
      { persistentID := "app-new", friendlyName := "Bob", publicKey := some "K",
        ts := some "9", signature := some "s" } none true VerifyOutcome.invalid
      = some ⟨c2State, none, true⟩)
    ∧ (rvzHandleExchange c2State
        { persistentID := "app-new", friendlyName := "Bob", publicKey := some "K",
          ts := some "9", signature := none } none true VerifyOutcome.invalid
      = (migrateContact c2State "app-old" "app-new").map
          (fun m => ⟨m.state, some ("app-old", "app-new"), false⟩)) :=
  ⟨(rvzHandleExchange_gate_spec c2State
      { persistentID := "app-new", friendlyName := "Bob", publicKey := some "K",
        ts := some "9", signature := some "s" } none VerifyOutcome.invalid true).1
      rfl rfl rfl rfl (by intro h; cases h),
    (rvzHandleExchange_gate_spec c2State
      { persistentID := "app-new", friendlyName := "Bob", publicKey := some "K",
        ts := some "9", signature := none } none VerifyOutcome.invalid true).2.2
      "app-old" (fun hg => absurd hg.2.1 (by simp))
      (Or.inr ⟨rfl, "K", rfl, rfl⟩) (by decide)⟩

end PeerNS
